import Mathlib

/-!
Shallow embedding of the genshin-translator repository (persona learning,
persona store, lexical normalizer, translation filler) together with proofs
of the frozen specification claims.

Conventions of the embedding:
* A spreadsheet cell is an `Option String`; `none` models a missing value
  (pandas `NaN`, produced by `pd.read_csv` for empty cells), `some s` a
  string cell.  `dropna` is `filterMap`, `pd.notna` is `Option.isSome`.
* The outbound text-completion gateway (`agents/llm.py::llm_call`) is an
  external capability; it is a parameter of type
  `String → String → Except String String` (system prompt → user prompt →
  generated text or a raised error).  The fixed `temperature=0.2` argument
  at the learner's call site is folded into the abstract gateway.
* Python's `json.loads` (standard library, not repository code) is a
  parameter of type `String → Except String JVal`; `json.dump`/`json.load`
  used by the persona store are modelled concretely below (`dumpVal`,
  `parseVal`) following CPython's `json` output format for
  `ensure_ascii=False, indent=2` and its accepted input grammar, restricted
  to the value universe the store produces (objects, arrays, strings,
  booleans, null; numeric leaves never occur in a persona file).
* Case functions (`str.lower`, `str.isupper`, …) and the `\w` character
  class are modelled on the ASCII subset via Lean's `Char` primitives; all
  casing-sensitive claims concern ASCII tokens.
-/

namespace GenshinTranslator

/-! ## Python string primitives used by the sources -/

/-- `str.lower()` (ASCII model): every character lower-cased. -/
def pyLower (s : String) : String := String.mk (s.data.map Char.toLower)

/-- `str.upper()` (ASCII model): every character upper-cased. -/
def pyUpper (s : String) : String := String.mk (s.data.map Char.toUpper)

/-- A cased character (ASCII model: letters are cased). -/
def pyIsCased (c : Char) : Bool := c.isAlpha

/-- `str.isupper()`: at least one cased character and no lower-case cased
character. -/
def pyIsUpper (s : String) : Bool :=
  s.data.any pyIsCased && s.data.all (fun c => !pyIsCased c || c.isUpper)

/-- Helper for `str.istitle()`: walk the characters carrying whether the
previous character was cased and whether a cased character was seen. -/
def pyIsTitleAux : Bool → Bool → List Char → Bool
  | _, found, [] => found
  | prevCased, found, c :: cs =>
    if pyIsCased c then
      (if prevCased then c.isLower else c.isUpper) && pyIsTitleAux true true cs
    else
      pyIsTitleAux false found cs

/-- `str.istitle()`: upper-case letters follow uncased characters,
lower-case letters follow cased ones, and at least one cased character
occurs. -/
def pyIsTitle (s : String) : Bool := pyIsTitleAux false false s.data

/-- `str.capitalize()`: first character upper-cased, all remaining
characters lower-cased. -/
def pyCapitalize (s : String) : String :=
  match s.data with
  | [] => ""
  | c :: cs => String.mk (c.toUpper :: cs.map Char.toLower)

/-- `str.strip()` (used only through truthiness of the stripped string):
leading and trailing whitespace removed, modelled with Lean's whitespace
set. -/
def pyStrip (s : String) : String :=
  String.mk (((s.data.dropWhile Char.isWhitespace).reverse.dropWhile
    Char.isWhitespace).reverse)

/-- Truthiness test `not s.strip()`: the string is blank. -/
def isBlank (s : String) : Bool := (pyStrip s).data.isEmpty

/-! ## Lexical normalizer (`agents/normalizer.py`) -/

/-- `DEFAULT_KBBI_MAP`. -/
def DEFAULT_KBBI_MAP : List (String × String) := [("udah", "sudah")]

/-- A `\w` character of the tokenizing regex (ASCII model: alphanumeric or
underscore). -/
def isWordChar (c : Char) : Bool := c.isAlphanum || c == '_'

/-- A character of the regex class `[\w\-']`. -/
def isTokenChar (c : Char) : Bool := isWordChar c || c == '-' || c == '\''

/-- Replace-or-append update of an association list, mirroring Python dict
assignment (value replaced in place for an existing key, appended
otherwise). -/
def setAssocStr (m : List (String × String)) (k v : String) :
    List (String × String) :=
  if m.any (fun kv => kv.1 == k) then
    m.map (fun kv => if kv.1 == k then (k, v) else kv)
  else m ++ [(k, v)]

/-- First-match lookup in an association list (Python dict lookup). -/
def lookupAssocStr (m : List (String × String)) (k : String) :
    Option String :=
  match m.find? (fun kv => kv.1 == k) with
  | some kv => some kv.2
  | none => none

/-- The merged normalization map: the defaults, updated entry by entry with
the caller-supplied map keyed by the lower-cased key
(`mapping.update({k.lower(): v for k, v in custom_map.items()})`). -/
def effectiveMap (custom_map : Option (List (String × String))) :
    List (String × String) :=
  match custom_map with
  | none => DEFAULT_KBBI_MAP
  | some m =>
    (m.map (fun kv => (pyLower kv.1, kv.2))).foldl
      (fun acc kv => setAssocStr acc kv.1 kv.2) DEFAULT_KBBI_MAP

/-- `_match_casing`. -/
def matchCasing (src dst : String) : String :=
  if pyIsUpper src then pyUpper dst
  else if pyIsTitle src then pyCapitalize dst
  else dst

/-- The replacement callback `repl` applied to one matched token. -/
def replToken (mapping : List (String × String)) (w : String) : String :=
  match lookupAssocStr mapping (pyLower w) with
  | some dst => matchCasing w dst
  | none => w

/-- Split a character list into maximal runs on which `isTokenChar` is
constant (built right to left).  This is the scanning skeleton of `re.sub`
with the pattern `\b([\w\-']+)\b`: every match lies inside one maximal
`[\w\-']` run. -/
def splitRuns : List Char → List (List Char)
  | [] => []
  | c :: cs =>
    match splitRuns cs with
    | [] => [[c]]
    | run :: runs =>
      if isTokenChar c == isTokenChar (run.headD ' ') then (c :: run) :: runs
      else [c] :: run :: runs

/-- Process one maximal run.  A `[\w\-']` run matches the regex
`\b([\w\-']+)\b` exactly once, from its first `\w` character to its last
`\w` character (word boundaries force the match to start and end on a word
character; greedy matching plus backtracking include everything between).
Runs of non-class characters, and class runs with no word character, pass
through unchanged. -/
def processRun (mapping : List (String × String)) (run : List Char) :
    List Char :=
  if isTokenChar (run.headD ' ') then
    let core := run.dropWhile (fun c => !isWordChar c)
    if core.isEmpty then run
    else
      let lead := run.takeWhile (fun c => !isWordChar c)
      let revCore := core.reverse
      let tok := (revCore.dropWhile (fun c => !isWordChar c)).reverse
      let trail := (revCore.takeWhile (fun c => !isWordChar c)).reverse
      lead ++ (replToken mapping (String.mk tok)).data ++ trail
  else run

/-- `normalize_indonesian`. -/
def normalize_indonesian (text : String)
    (custom_map : Option (List (String × String)) := none) : String :=
  String.mk
    (((splitRuns text.data).map
        (processRun (effectiveMap custom_map))).flatten)

/-! ## JSON documents (Python `json` module, restricted value universe)

The persona store serializes mappings whose leaves are strings, lists of
strings and `None`; numeric leaves never occur, so the value universe below
omits numbers.  `dumpVal` reproduces CPython's `json.dump` output for
`ensure_ascii=False, indent=2` (default separators `(',', ': ')`);
`parseVal` is a recursive-descent reader of the JSON grammar accepted by
`json.load`, restricted to the same universe, with a fuel argument bounding
the recursion depth. -/

inductive JVal where
  | null : JVal
  | bool (b : Bool) : JVal
  | str (s : String) : JVal
  | arr (xs : List JVal) : JVal
  | obj (ms : List (String × JVal)) : JVal

/-- Lower-case hexadecimal digit, as produced by CPython's `'\u%04x'`
formatting of control characters (codepoint arithmetic: `48 = '0'`,
`87 + 10 = 'a'`). -/
def hexDigitChar (n : Nat) : Char :=
  Char.ofNat (if n < 10 then 48 + n else 87 + n)

/-- Escape one character the way CPython's `json` encoder does with
`ensure_ascii=False`: only `"`, `\` and control characters below `0x20` are
escaped (five of them by shorthand escapes), everything else is emitted
verbatim. -/
def escChar (c : Char) : List Char :=
  if c == '"' then ['\\', '"']
  else if c == '\\' then ['\\', '\\']
  else if c == '\n' then ['\\', 'n']
  else if c == '\r' then ['\\', 'r']
  else if c == '\t' then ['\\', 't']
  else if c == '\x08' then ['\\', 'b']
  else if c == '\x0c' then ['\\', 'f']
  else if c.toNat < 32 then
    '\\' :: 'u' :: '0' :: '0' :: [hexDigitChar (c.toNat / 16), hexDigitChar (c.toNat % 16)]
  else [c]

def escString : List Char → List Char
  | [] => []
  | c :: cs => escChar c ++ escString cs

/-- The newline-plus-indentation emitted between items at nesting
indentation `n`. -/
def nlIndent (n : Nat) : List Char := '\n' :: List.replicate n ' '

mutual

def dumpVal (ind : Nat) : JVal → List Char
  | .null => 'n' :: 'u' :: ['l', 'l']
  | .bool true => 't' :: 'r' :: ['u', 'e']
  | .bool false => 'f' :: 'a' :: ['l', 's', 'e']
  | .str s => '"' :: (escString s.data ++ ['"'])
  | .arr [] => ['[', ']']
  | .arr (v :: vs) =>
    '[' :: (nlIndent (ind + 2) ++ (dumpVal (ind + 2) v ++
      (dumpElems (ind + 2) vs ++ (nlIndent ind ++ [']']))))
  | .obj [] => ['{', '}']
  | .obj ((k, v) :: ms) =>
    '{' :: (nlIndent (ind + 2) ++ (dumpMember (ind + 2) k v ++
      (dumpMembers (ind + 2) ms ++ (nlIndent ind ++ ['}']))))
termination_by v => sizeOf v
decreasing_by all_goals (simp_wf <;> omega)

/-- The `", "`-free tail of an array: a comma, a line break and the next
element, for every element after the first. -/
def dumpElems (ind : Nat) : List JVal → List Char
  | [] => []
  | v :: vs => ',' :: (nlIndent ind ++ (dumpVal ind v ++ dumpElems ind vs))
termination_by vs => sizeOf vs
decreasing_by all_goals (simp_wf <;> omega)

/-- One object member: quoted key, `": "`, value. -/
def dumpMember (ind : Nat) (k : String) (v : JVal) : List Char :=
  '"' :: (escString k.data ++ ('"' :: ':' :: ' ' :: dumpVal ind v))
termination_by sizeOf v + 1
decreasing_by all_goals (simp_wf <;> omega)

def dumpMembers (ind : Nat) : List (String × JVal) → List Char
  | [] => []
  | (k, v) :: ms => ',' :: (nlIndent ind ++ (dumpMember ind k v ++ dumpMembers ind ms))
termination_by ms => sizeOf ms
decreasing_by all_goals (simp_wf <;> omega)

end

/-- JSON insignificant whitespace (`json.decoder` skips `' '`, `'\t'`,
`'\n'`, `'\r'`). -/
def isJsonWs (c : Char) : Bool := [' ', '\t', '\n', '\r'].contains c

def skipWs (cs : List Char) : List Char := cs.dropWhile isJsonWs

/-- Value of one hexadecimal digit, caseless (codepoints: digits 48–57,
lower letters 97–102, upper letters 65–70). -/
def hexVal (c : Char) : Option Nat :=
  let n := c.toNat
  if 48 ≤ n && n ≤ 57 then some (n - 48)
  else if 97 ≤ n && n ≤ 102 then some (n - 87)
  else if 65 ≤ n && n ≤ 70 then some (n - 55)
  else none

/-- The character denoted by a shorthand escape `\e`, when `e` is one of
the eight single-character escapes. -/
def escCharFor (e : Char) : Option Char :=
  if e == '"' then some '"'
  else if e == '\\' then some '\\'
  else if e == '/' then some '/'
  else if e == 'n' then some '\n'
  else if e == 'r' then some '\r'
  else if e == 't' then some '\t'
  else if e == 'b' then some '\x08'
  else if e == 'f' then some '\x0c'
  else none

mutual

/-- Read the body of a JSON string after its opening quote; returns the
decoded characters and the remaining input after the closing quote. -/
def parseStrAux : List Char → Except String (List Char × List Char)
  | [] => .error "unterminated string"
  | c :: cs =>
    if c == '"' then .ok ([], cs)
    else if c == '\\' then parseEscape cs
    else (parseStrAux cs).map (fun r => (c :: r.1, r.2))
termination_by l => l.length
decreasing_by all_goals (simp_wf <;> omega)

/-- Decode one escape sequence (the input starts after the backslash). -/
def parseEscape : List Char → Except String (List Char × List Char)
  | [] => .error "unterminated string"
  | e :: cs =>
    match escCharFor e with
    | some d => (parseStrAux cs).map (fun r => (d :: r.1, r.2))
    | none => if e == 'u' then parseHex4 cs else .error "invalid escape"
termination_by l => l.length
decreasing_by all_goals (simp_wf <;> omega)

/-- Decode the four hex digits of a `\uXXXX` escape. -/
def parseHex4 : List Char → Except String (List Char × List Char)
  | h1 :: h2 :: h3 :: h4 :: cs =>
    match hexVal h1, hexVal h2, hexVal h3, hexVal h4 with
    | some a, some b, some x, some y =>
      (parseStrAux cs).map
        (fun r => (Char.ofNat (a * 4096 + b * 256 + x * 16 + y) :: r.1, r.2))
    | _, _, _, _ => .error "invalid hex escape"
  | _ => .error "invalid hex escape"
termination_by l => l.length
decreasing_by all_goals (simp_wf <;> omega)

end

mutual

def parseVal : Nat → List Char → Except String (JVal × List Char)
  | 0, _ => .error "too deep"
  | fuel + 1, cs =>
    match skipWs cs with
    | '"' :: cs' =>
      match parseStrAux cs' with
      | .ok (sd, rest) => .ok (.str (String.mk sd), rest)
      | .error e => .error e
    | 'n' :: 'u' :: 'l' :: 'l' :: rest => .ok (.null, rest)
    | 't' :: 'r' :: 'u' :: 'e' :: rest => .ok (.bool true, rest)
    | 'f' :: 'a' :: 'l' :: 's' :: 'e' :: rest => .ok (.bool false, rest)
    | '[' :: cs' =>
      let cs'' := skipWs cs'
      if cs''.headD ' ' == ']' then .ok (.arr [], cs''.tail)
      else
        match parseElems fuel cs'' with
        | .ok (vs, rest) => .ok (.arr vs, rest)
        | .error e => .error e
    | '{' :: cs' =>
      let cs'' := skipWs cs'
      if cs''.headD ' ' == '}' then .ok (.obj [], cs''.tail)
      else
        match parseMembers fuel cs'' with
        | .ok (ms, rest) => .ok (.obj ms, rest)
        | .error e => .error e
    | _ => .error "invalid JSON value"

def parseElems : Nat → List Char → Except String (List JVal × List Char)
  | 0, _ => .error "too deep"
  | fuel + 1, cs =>
    match parseVal fuel cs with
    | .error e => .error e
    | .ok (v, rest) =>
      match skipWs rest with
      | ',' :: rest' =>
        match parseElems fuel rest' with
        | .ok (vs, rest'') => .ok (v :: vs, rest'')
        | .error e => .error e
      | ']' :: rest' => .ok ([v], rest')
      | _ => .error "expected comma or closing bracket"

def parseMembers : Nat → List Char → Except String (List (String × JVal) × List Char)
  | 0, _ => .error "too deep"
  | fuel + 1, cs =>
    match skipWs cs with
    | '"' :: cs' =>
      match parseStrAux cs' with
      | .error e => .error e
      | .ok (kd, rest) =>
        match skipWs rest with
        | ':' :: rest' =>
          match parseVal fuel rest' with
          | .error e => .error e
          | .ok (v, rest'') =>
            match skipWs rest'' with
            | ',' :: rest3 =>
              match parseMembers fuel rest3 with
              | .ok (ms, rest4) => .ok ((String.mk kd, v) :: ms, rest4)
              | .error e => .error e
            | '}' :: rest3 => .ok ([(String.mk kd, v)], rest3)
            | _ => .error "expected comma or closing brace"
        | _ => .error "expected colon"
    | _ => .error "expected property name"

end

/-- `json.load` on a whole document: one value, then only whitespace may
remain ("Extra data" otherwise).  The fuel `length + 1` dominates the
recursion depth of any document the dumper can produce (see
`jwV_le_dumpVal_length`). -/
def jsonLoad (s : String) : Except String JVal :=
  match parseVal (s.length + 1) s.data with
  | .ok (v, rest) => if (skipWs rest).isEmpty then .ok v else .error "Extra data"
  | .error e => .error e

/-! Recursion-depth weights used to discharge the parser's fuel. -/

mutual

def jwV : JVal → Nat
  | .null => 1
  | .bool _ => 1
  | .str _ => 1
  | .arr [] => 1
  | .arr (v :: vs) => 1 + jwE v vs
  | .obj [] => 1
  | .obj (kv :: ms) => 1 + jwM kv ms
termination_by v => sizeOf v
decreasing_by all_goals (simp_wf <;> omega)

def jwE : JVal → List JVal → Nat
  | v, [] => 1 + jwV v
  | v, w :: ws => 1 + jwV v + jwE w ws
termination_by v vs => sizeOf v + sizeOf vs
decreasing_by all_goals (simp_wf <;> omega)

def jwM : String × JVal → List (String × JVal) → Nat
  | (_, v), [] => 1 + jwV v
  | (_, v), kv' :: ms => 1 + jwV v + jwM kv' ms
termination_by kv ms => sizeOf kv + sizeOf ms
decreasing_by all_goals (simp_wf <;> omega)

end

/-! ## Persona schema (`agents/persona_learner.py::PersonaProfile`)

The pydantic model, as a record plus an explicit validator over decoded
JSON objects.  The validator mirrors the checks that decide success or
failure of `PersonaProfile(**obj)`: required string fields, the
`^(en|id)$` pattern on `target_lang`, optional string-or-null fields,
list-of-strings fields defaulting to `[]`, extra keys ignored.  (Pydantic's
numeric-coercion corner cases cannot change any claim: every claim below
either quantifies over the outcome of validation or forces the pattern
check to fail.) -/

structure PersonaProfile where
  character_id : String
  target_lang : String
  tone : String
  quirks : List String
  pronouns : Option String
  formality : Option String
  punctuation_habits : Option String
  lexical_preferences : List String
  style_rules_en : List String
  style_rules_id : List String
  notes : Option String
deriving DecidableEq

/-- Python dict lookup on a decoded JSON object. -/
def jlookup (m : List (String × JVal)) (k : String) : Option JVal :=
  match m.find? (fun kv => kv.1 == k) with
  | some kv => some kv.2
  | none => none

/-- Python dict assignment `obj[k] = v` (replace in place, else append). -/
def jset (m : List (String × JVal)) (k : String) (v : JVal) :
    List (String × JVal) :=
  if m.any (fun kv => kv.1 == k) then
    m.map (fun kv => if kv.1 == k then (k, v) else kv)
  else m ++ [(k, v)]

def asStr : JVal → Except String String
  | .str s => .ok s
  | _ => .error "Input should be a valid string"

def asStrList : JVal → Except String (List String)
  | .arr xs => xs.mapM asStr
  | _ => .error "Input should be a valid list"

def asOptStr : JVal → Except String (Option String)
  | .null => .ok none
  | .str s => .ok (some s)
  | _ => .error "Input should be a valid string or null"

def reqStrField (m : List (String × JVal)) (k : String) : Except String String :=
  match jlookup m k with
  | some v => asStr v
  | none => .error ("Field required: " ++ k)

def optStrField (m : List (String × JVal)) (k : String) :
    Except String (Option String) :=
  match jlookup m k with
  | some v => asOptStr v
  | none => .ok none

def listStrField (m : List (String × JVal)) (k : String) :
    Except String (List String) :=
  match jlookup m k with
  | some v => asStrList v
  | none => .ok []

/-- The `Field(pattern="^(en|id)$")` constraint. -/
def targetLangOk (tl : String) : Bool := tl == "en" || tl == "id"

/-- Validation performed by `PersonaProfile(**obj)` on a decoded JSON
object. -/
def validateProfile (m : List (String × JVal)) : Except String PersonaProfile := do
  let cid ← reqStrField m "character_id"
  let tl ← reqStrField m "target_lang"
  if targetLangOk tl then
    let tone ← reqStrField m "tone"
    let quirks ← listStrField m "quirks"
    let pron ← optStrField m "pronouns"
    let form ← optStrField m "formality"
    let punct ← optStrField m "punctuation_habits"
    let lex ← listStrField m "lexical_preferences"
    let sen ← listStrField m "style_rules_en"
    let sid ← listStrField m "style_rules_id"
    let nts ← optStrField m "notes"
    pure ⟨cid, tl, tone, quirks, pron, form, punct, lex, sen, sid, nts⟩
  else .error "String should match pattern (en|id)"

/-- `PersonaProfile(character_id=…, target_lang=…, tone=…, quirks=…)`
called with keyword arguments (the fallback-profile construction); the
constructor also runs the pattern validation on `target_lang` and raises
when it fails. -/
def mkPersonaProfile (cid tl tone : String) (quirks : List String) :
    Except String PersonaProfile :=
  if targetLangOk tl then
    .ok ⟨cid, tl, tone, quirks, none, none, none, [], [], [], none⟩
  else .error "String should match pattern (en|id)"

/-! ## Persona learner (`agents/persona_learner.py::learn_personas_from_csv`) -/

/-- Python `str.find(sub)` for a single character: first index or `-1`. -/
def pyFindIdx (cs : List Char) (c : Char) : Int :=
  match cs.findIdx? (fun d => d == c) with
  | some i => (i : Int)
  | none => -1

/-- Python `str.rfind(sub)` for a single character: last index or `-1`. -/
def pyRFindIdx (cs : List Char) (c : Char) : Int :=
  match cs.reverse.findIdx? (fun d => d == c) with
  | some i => (cs.length : Int) - 1 - (i : Int)
  | none => -1

/-- Python slice-bound semantics: negative indices count from the end and
are clamped to `[0, len]`. -/
def pySliceIdx (len : Nat) (i : Int) : Nat :=
  if i < 0 then (if (len : Int) + i < 0 then 0 else ((len : Int) + i).toNat)
  else min i.toNat len

/-- Python `s[a:b]`. -/
def pySlice (cs : List Char) (a b : Int) : List Char :=
  (cs.take (pySliceIdx cs.length b)).drop (pySliceIdx cs.length a)

/-- `raw[raw.find("{") : raw.rfind("}") + 1]` — the lenient
"first `{` to last `}`" JSON-candidate heuristic. -/
def jsonCandidate (raw : String) : String :=
  String.mk (pySlice raw.data (pyFindIdx raw.data '{') (pyRFindIdx raw.data '}' + 1))

/-- The distinguishable exception classes escaping
`learn_personas_from_csv`. -/
inductive LearnError where
  | missingColumns (cols : List String)
  | gatewayError (msg : String)
  | validationError (msg : String)
deriving DecidableEq

/-- The body of the learner's `try:` block for one character: slice the
JSON candidate, decode it, force-set `character_id` and `target_lang`,
validate.  Any `.error` models an exception caught by the `except`
clause. -/
def handleResponse (json_loads : String → Except String JVal)
    (character_id target_lang raw : String) : Except String PersonaProfile :=
  match json_loads (jsonCandidate raw) with
  | .error e => .error e
  | .ok (.obj m) =>
    validateProfile
      (jset (jset m "character_id" (.str character_id)) "target_lang" (.str target_lang))
  | .ok _ => .error "TypeError: argument after ** must be a mapping"

def learnSystem : String :=
  "You are a localization style analyst. Given several translated dialog lines from ONE game character, infer their speaking style."

/-- `"\n".join(f"- {line}" for line in tgt_lines)`. -/
def sample_block (tgt_lines : List String) : String :=
  String.intercalate "\n" (tgt_lines.map (fun line => "- " ++ line))

/-- `'English' if target_lang=='en' else 'Indonesian'`. -/
def languageName (target_lang : String) : String :=
  if target_lang == "en" then "English" else "Indonesian"

/-- `PersonaProfile.schema_json(indent=2)`: the pydantic-generated JSON
schema embedded in the learning prompt.  Its exact rendering depends on the
installed pydantic version; no claim inspects this text (all theorems
quantify over the gateway's response), so a faithful field-level
transcription suffices here. -/
def personaSchemaJson : String :=
  "\x7b\n  \"title\": \"PersonaProfile\",\n  \"type\": \"object\",\n  \"properties\": \x7b\n    \"character_id\": \x7b\"type\": \"string\"\x7d,\n    \"target_lang\": \x7b\"type\": \"string\", \"pattern\": \"^(en|id)$\"\x7d,\n    \"tone\": \x7b\"type\": \"string\"\x7d,\n    \"quirks\": \x7b\"type\": \"array\", \"items\": \x7b\"type\": \"string\"\x7d\x7d,\n    \"pronouns\": \x7b\"type\": \"string\"\x7d,\n    \"formality\": \x7b\"type\": \"string\"\x7d,\n    \"punctuation_habits\": \x7b\"type\": \"string\"\x7d,\n    \"lexical_preferences\": \x7b\"type\": \"array\", \"items\": \x7b\"type\": \"string\"\x7d\x7d,\n    \"style_rules_en\": \x7b\"type\": \"array\", \"items\": \x7b\"type\": \"string\"\x7d\x7d,\n    \"style_rules_id\": \x7b\"type\": \"array\", \"items\": \x7b\"type\": \"string\"\x7d\x7d,\n    \"notes\": \x7b\"type\": \"string\"\x7d\n  \x7d,\n  \"required\": [\"character_id\", \"target_lang\", \"tone\"]\n\x7d"

/-- The learner's user prompt (the f-string of lines 69–88, `.strip()`ed). -/
def learnUserPrompt (max_lines_per_char : Nat)
    (target_lang character_id sampleBlk : String) : String :=
  "You will be given up to " ++ toString max_lines_per_char ++
  " lines **already translated** to " ++ languageName target_lang ++
  ".\nFrom these, infer a concise persona profile capturing tone, quirks, formality, pronoun choices, punctuation habits, and recurring lexical preferences.\n\nReturn STRICT JSON that validates this Pydantic model:\n\n" ++
  personaSchemaJson ++
  "\n\nCharacter ID: " ++ character_id ++
  "\nTarget language code: " ++ target_lang ++
  "\n\nTranslated sample lines:\n" ++ sampleBlk ++
  "\n\nImportant:\n- Base your analysis ONLY on these translated lines.\n- Keep it short and concrete; no generic fluff.\n- If a field is unknown, leave it empty or minimal.\n- Output ONLY the JSON object, nothing else."

/-- The per-character body of the learner's loop after sampling: one
gateway call, then the `try/except` response handling with the fallback
minimal profile.  The gateway call sits *outside* the `try`, so its error
propagates as `gatewayError`; a failing fallback construction propagates as
`validationError`. -/
def processGroup (llm_call : String → String → Except String String)
    (json_loads : String → Except String JVal)
    (character_id target_lang : String) (max_lines_per_char : Nat)
    (tgt_lines : List String) : Except LearnError PersonaProfile :=
  match llm_call learnSystem
      (learnUserPrompt max_lines_per_char target_lang character_id
        (sample_block tgt_lines)) with
  | .error e => .error (.gatewayError e)
  | .ok raw =>
    match handleResponse json_loads character_id target_lang raw with
    | .ok p => .ok p
    | .error _ =>
      match mkPersonaProfile character_id target_lang "neutral" [] with
      | .ok p => .ok p
      | .error m => .error (.validationError m)

/-- One spreadsheet row: named cells, `none` for a missing value. -/
structure Row where
  cells : List (String × Option String)
deriving DecidableEq

def Row.get (r : Row) (c : String) : Option String :=
  match r.cells.find? (fun kv => kv.1 == c) with
  | some kv => kv.2
  | none => none

structure DataFrame where
  columns : List String
  rows : List Row
deriving DecidableEq

/-- Distinct values in first-occurrence order, with an accumulator of keys
already seen.  (`df.groupby` sorts the group keys; the key order only
affects the returned dict's insertion order, never its contents, and no
claim depends on it, so first-occurrence order is used here.) -/
def firstKeysAux (seen : List String) : List String → List String
  | [] => []
  | k :: ks =>
    if seen.contains k then firstKeysAux seen ks
    else k :: firstKeysAux (k :: seen) ks

def firstKeys (l : List String) : List String := firstKeysAux [] l

/-- `[c for c in {char_col, src_col, tgt_col} if c not in df.columns]`
(the Python set's iteration order is unspecified; membership is what the
claims constrain). -/
def missingColumnsOf (cols : List String) (char_col src_col tgt_col : String) :
    List String :=
  (firstKeys [char_col, src_col, tgt_col]).filter (fun c => !(cols.contains c))

/-- `if max_chars: df = df.head(max_chars)` (Python truthiness: `0` and
`None` both leave the frame whole). -/
def effRows (rows : List Row) (max_chars : Option Nat) : List Row :=
  match max_chars with
  | none => rows
  | some n => if n == 0 then rows else rows.take n

/-- The group keys: distinct non-missing values of the character column. -/
def groupKeysOf (rows : List Row) (char_col : String) : List String :=
  firstKeys (rows.filterMap (fun r => r.get char_col))

/-- `g[tgt_col].dropna().astype(str).tolist()[:max_lines_per_char]` for the
group of `k`. -/
def usableLines (rows : List Row) (char_col tgt_col k : String)
    (max_lines_per_char : Nat) : List String :=
  ((rows.filter (fun r => r.get char_col == some k)).filterMap
    (fun r => r.get tgt_col)).take max_lines_per_char

/-- Spec-side sampling description, written from the claim's words: "the
non-empty target-language values of that group, in original row order,
truncated to max_lines_per_character" (a non-empty value of a CSV cell is a
present, non-`NaN` value). -/
def specSampleLines (rows : List Row) (char_col tgt_col k : String)
    (max_lines_per_character : Nat) : List String :=
  ((rows.filter (fun r => r.get char_col == some k)).filterMap
    (fun r => r.get tgt_col)).take max_lines_per_character

/-- The learner's loop over the character groups, building the result
mapping; any uncaught exception aborts the whole loop. -/
def learnGroups (llm_call : String → String → Except String String)
    (json_loads : String → Except String JVal)
    (target_lang : String) (max_lines_per_char : Nat)
    (lns : String → List String) :
    List String → Except LearnError (List (String × PersonaProfile))
  | [] => .ok []
  | k :: ks =>
    if (lns k).isEmpty then
      learnGroups llm_call json_loads target_lang max_lines_per_char lns ks
    else
      match processGroup llm_call json_loads k target_lang max_lines_per_char (lns k) with
      | .error e => .error e
      | .ok p =>
        match learnGroups llm_call json_loads target_lang max_lines_per_char lns ks with
        | .error e => .error e
        | .ok rest => .ok ((k, p) :: rest)

/-- `learn_personas_from_csv` (the CSV reading itself is external tabular
I/O; the function receives the decoded frame). -/
def learn_personas_from_csv (llm_call : String → String → Except String String)
    (json_loads : String → Except String JVal) (df : DataFrame)
    (char_col src_col tgt_col target_lang : String)
    (max_lines_per_char : Nat) (max_chars : Option Nat) :
    Except LearnError (List (String × PersonaProfile)) :=
  let missing := missingColumnsOf df.columns char_col src_col tgt_col
  if missing.isEmpty then
    let rows := effRows df.rows max_chars
    learnGroups llm_call json_loads target_lang max_lines_per_char
      (fun k => usableLines rows char_col tgt_col k max_lines_per_char)
      (groupKeysOf rows char_col)
  else .error (.missingColumns missing)

/-- Result-mapping lookup (the returned Python dict). -/
def alookup (m : List (String × PersonaProfile)) (k : String) :
    Option PersonaProfile :=
  match m.find? (fun kv => kv.1 == k) with
  | some kv => some kv.2
  | none => none

/-! ## Persona store (`save_personas` / `load_personas`) -/

def optStrJ : Option String → JVal
  | none => .null
  | some s => .str s

/-- `profile.model_dump()`: the profile as a JSON object, fields in
declaration order. -/
def profileDump (p : PersonaProfile) : JVal :=
  .obj [("character_id", .str p.character_id),
        ("target_lang", .str p.target_lang),
        ("tone", .str p.tone),
        ("quirks", .arr (p.quirks.map .str)),
        ("pronouns", optStrJ p.pronouns),
        ("formality", optStrJ p.formality),
        ("punctuation_habits", optStrJ p.punctuation_habits),
        ("lexical_preferences", .arr (p.lexical_preferences.map .str)),
        ("style_rules_en", .arr (p.style_rules_en.map .str)),
        ("style_rules_id", .arr (p.style_rules_id.map .str)),
        ("notes", optStrJ p.notes)]

/-- The persona mapping as the JSON document `json.dump` receives. -/
def storeDump (profiles : List (String × PersonaProfile)) : JVal :=
  .obj (profiles.map (fun kv => (kv.1, profileDump kv.2)))

/-- `save_personas`: `json.dump(profiles, f, ensure_ascii=False, indent=2)`
as the produced file text. -/
def save_personas (profiles : List (String × PersonaProfile)) : String :=
  String.mk (dumpVal 0 (storeDump profiles))

/-- `load_personas`: `json.load(f)` on the file text. -/
def load_personas (s : String) : Except String JVal := jsonLoad s

/-! ## Translation filler (`fill_translations.py::main`, row loop) -/

/-- One row of the sheet being filled: the Chinese source cell and the
Indonesian target cell (`none` = `NaN`). -/
structure FillRow where
  src : Option String
  tgt : Option String
deriving DecidableEq

/-- `persona.get(k, default)` for a string-valued field.  (Persona values
are strings or lists of strings; a non-string value would only change the
prompt text, which no claim inspects, so it is rendered as the default.) -/
def pgetStrD (p : List (String × JVal)) (k dflt : String) : String :=
  match jlookup p k with
  | some (.str s) => s
  | _ => dflt

/-- `persona.get(k, [])` for a list-of-strings field. -/
def pgetStrs (p : List (String × JVal)) (k : String) : List String :=
  match jlookup p k with
  | some (.arr xs) =>
    xs.filterMap (fun v => match v with | .str s => some s | _ => none)
  | _ => []

/-- `", ".join(xs) or "none"`. -/
def joinOrNone (xs : List String) : String :=
  let j := String.intercalate ", " xs
  if j.isEmpty then "none" else j

/-- `build_system()` (identical in `fill_translations.py` and
`streamlit_app.py`). -/
def fillSystem : String :=
  "You are a professional game localization translator.\nPreserve placeholders/tags exactly (e.g., \x7bNICKNAME\x7d, \x7bPLAYER_NAME\x7d, <color=...> ... </color>).\nFollow the character persona and mimic tone and quirks.\nOutput only the translation."

/-- `fill_translations.py::build_user`. -/
def fillBuildUser (src_cn : String) (persona : List (String × JVal))
    (tgt_lang : String) : String :=
  let tone := pgetStrD persona "tone" "neutral"
  let quirks := joinOrNone (pgetStrs persona "quirks")
  let rules := joinOrNone
    (pgetStrs persona (if tgt_lang == "id" then "style_rules_id" else "style_rules_en"))
  "Translate from Chinese (Simplified) to " ++
  (if tgt_lang == "id" then "Indonesian" else "English") ++
  ".\n\nPersona:\n- Tone: " ++ tone ++ "\n- Quirks: " ++ quirks ++
  "\n- Rules: " ++ rules ++
  "\n\nUntranslatable tokens (preserve verbatim): patterns like \x7bNICKNAME\x7d, \x7bPLAYER_NAME\x7d,\nand tags like <color=...> ... </color>. Do not remove or translate them.\n\nText:\n" ++
  src_cn ++
  "\n\nRequirements:\n1) Preserve placeholders/tags exactly.\n2) Keep sentences concise for UI.\n3) Match persona tone/quirks.\n4) Output only translated text."

/-- One iteration of the CLI filler's row loop (lines 163–197): the skip
policy, the guarded gateway call (`try/except` + `continue`), the optional
KBBI normalization, and the cell write.  Returns the updated row and the
error report printed for a failed gateway call (the loop's own
`print(f"[…] ERROR: {e}")`). -/
def fill_row_step (llm_call : String → String → Except String String)
    (persona : List (String × JVal)) (overwrite kbbi : Bool)
    (custom_map : Option (List (String × String))) (r : FillRow) :
    FillRow × Option String :=
  let src := r.src.getD ""
  if isBlank src then (r, none)
  else
    let tgt_existing := r.tgt.getD ""
    if !isBlank tgt_existing && !overwrite then (r, none)
    else
      match llm_call fillSystem (fillBuildUser src persona "id") with
      | .error e => (r, some e)
      | .ok out =>
        let out := if kbbi then normalize_indonesian out custom_map else out
        ({ r with tgt := some out }, none)

/-- The whole batch: the loop mutates independent rows of the frame in
place, so it is the per-row step mapped over the rows. -/
def fill_rows (llm_call : String → String → Except String String)
    (persona : List (String × JVal)) (overwrite kbbi : Bool)
    (custom_map : Option (List (String × String))) (rows : List FillRow) :
    List FillRow :=
  rows.map (fun r => (fill_row_step llm_call persona overwrite kbbi custom_map r).1)

/-- The error reports produced by the batch, in row order. -/
def fill_reports (llm_call : String → String → Except String String)
    (persona : List (String × JVal)) (overwrite kbbi : Bool)
    (custom_map : Option (List (String × String))) (rows : List FillRow) :
    List String :=
  rows.filterMap (fun r => (fill_row_step llm_call persona overwrite kbbi custom_map r).2)

/-! ## Translation tab of `streamlit_app.py` (run_btn row loop) -/

/-- `persona_to_lines`: flatten truthy profile fields into labelled
guidance lines; empty profile ⇒ "Use neutral tone." -/
def persona_to_lines (p : List (String × JVal)) (tgt_lang : String) : String :=
  let strLine := fun (k label : String) =>
    match jlookup p k with
    | some (.str s) => if s.isEmpty then ([] : List String) else [label ++ s]
    | _ => ([] : List String)
  let listLine := fun (k label : String) =>
    match jlookup p k with
    | some (.arr xs) =>
      if xs.isEmpty then ([] : List String)
      else [label ++ String.intercalate ", "
        (((xs.filterMap (fun v => match v with | .str s => some s | _ => none))).filter
          (fun s => !s.isEmpty))]
    | _ => ([] : List String)
  let rules_key := if tgt_lang == "id" then "style_rules_id" else "style_rules_en"
  let lines :=
    strLine "tone" "Tone: " ++ strLine "formality" "Formality: " ++
    strLine "pronouns" "Preferred pronouns/register: " ++
    strLine "punctuation_habits" "Punctuation habits: " ++
    listLine "quirks" "Quirks: " ++
    listLine "lexical_preferences" "Lexical preferences: " ++
    listLine rules_key "Style rules: "
  if lines.isEmpty then "Use neutral tone." else String.intercalate "\n" lines

/-- `streamlit_app.py::build_user`. -/
def stBuildUser (src_cn : String) (persona : List (String × JVal))
    (tgt_lang : String) : String :=
  "Translate from Chinese (Simplified) to " ++
  (if tgt_lang == "id" then "Indonesian" else "English") ++
  ".\n\nPersona guidance:\n" ++ persona_to_lines persona tgt_lang ++
  "\n\nKeep placeholders/tags verbatim: tokens like \x7bNICKNAME\x7d, \x7bPLAYER_NAME\x7d, and tags such as <color=...> ... </color>.\nDo not translate or remove them. Keep lines concise and suitable for UI/dialog.\n\nText:\n" ++
  src_cn ++ "\n\nOutput only the translation."

/-- One iteration of the web front end's translation loop (lines 282–319).
The normalizer call sits in its own `try/except … pass`, so the step is
parameterized over a possibly-failing normalizer; the running system
instantiates it with `fun s => .ok (normalize_indonesian s custom_map)`.
On a gateway error the code writes the stringified prior value back
(`df.at[idx, col] = existing`) and reports the row's error. -/
def st_row_step (llm_call : String → String → Except String String)
    (normalizer : String → Except String String)
    (persona : List (String × JVal)) (no_training use_kbbi overwrite : Bool)
    (trans_lang : String) (r : FillRow) : FillRow × Option String :=
  let src := r.src.getD ""
  if isBlank src then (r, none)
  else
    let existing := r.tgt.getD ""
    if !isBlank existing && !overwrite then (r, none)
    else
      let persona_used := if !no_training && !persona.isEmpty then persona else []
      match llm_call fillSystem (stBuildUser src persona_used trans_lang) with
      | .ok out =>
        let out :=
          if use_kbbi && trans_lang == "id" then
            match normalizer out with
            | .ok o => o
            | .error _ => out
          else out
        ({ r with tgt := some out }, none)
      | .error e => ({ r with tgt := some existing }, some ("ERROR " ++ e))

/-- The fallback minimal profile the learner substitutes on response
failure: `PersonaProfile(character_id=…, target_lang=…, tone="neutral",
quirks=[])` with all remaining fields at their declared defaults. -/
def fallbackProfile (character_id target_lang : String) : PersonaProfile :=
  ⟨character_id, target_lang, "neutral", [], none, none, none, [], [], [], none⟩

/-! ## Concrete fixtures used by the witness theorems -/

/-- A `json.loads` behaviour that rejects every candidate (what the real
decoder does on the empty or junk slices the fixtures produce). -/
def jlFail : String → Except String JVal := fun _ => .error "Expecting value"

def rowHalo : Row :=
  ⟨[("character_id", some "A"), ("zh_cn", some "你好"), ("id_id", some "halo kawan")]⟩

def dfOne : DataFrame := ⟨["character_id", "zh_cn", "id_id"], [rowHalo]⟩

/-- Five rows for one character, one of them with a missing target cell:
the sampling fixture of claim C2. -/
def dfFive : DataFrame :=
  ⟨["character_id", "zh_cn", "id_id"],
   [⟨[("character_id", some "A"), ("zh_cn", some "一"), ("id_id", some "l1")]⟩,
    ⟨[("character_id", some "A"), ("zh_cn", some "二"), ("id_id", none)]⟩,
    ⟨[("character_id", some "A"), ("zh_cn", some "三"), ("id_id", some "l2")]⟩,
    ⟨[("character_id", some "A"), ("zh_cn", some "四"), ("id_id", some "l3")]⟩,
    ⟨[("character_id", some "A"), ("zh_cn", some "五"), ("id_id", some "l4")]⟩]⟩

/-- A frame with one zero-usable-lines group (`B`) and one usable group
(`A`). -/
def dfSkip : DataFrame :=
  ⟨["character_id", "zh_cn", "id_id"],
   [⟨[("character_id", some "B"), ("zh_cn", some "早"), ("id_id", none)]⟩, rowHalo]⟩

/-- A frame lacking the target column. -/
def dfNoCol : DataFrame := ⟨["character_id", "zh_cn"], [⟨[("character_id", some "A")]⟩]⟩

def frFresh : FillRow := ⟨some "你好", none⟩

def frKept : FillRow := ⟨some "你好", some "old"⟩

def frBlankSrc : FillRow := ⟨some "  ", some "old"⟩

/-! ## Lemmas: JSON string escaping round trip -/

theorem nlIndent_ws (n : Nat) : ∀ c ∈ nlIndent n, isJsonWs c = true := by
  intro c hc
  rcases List.mem_cons.mp hc with h | h
  · subst h; rfl
  · rw [List.eq_of_mem_replicate h]; rfl

theorem skipWs_append_ws (ws cs : List Char) (h : ∀ c ∈ ws, isJsonWs c = true) :
    skipWs (ws ++ cs) = skipWs cs := by
  induction ws with
  | nil => rfl
  | cons c ws ih =>
    have hc : isJsonWs c = true := h c (by simp)
    simp only [skipWs, List.cons_append, List.dropWhile_cons_of_pos hc]
    exact ih (fun d hd => h d (by simp [hd]))

theorem skipWs_cons_of_neg {c : Char} (cs : List Char) (h : isJsonWs c = false) :
    skipWs (c :: cs) = c :: cs := by
  have h' : ¬(isJsonWs c = true) := by simp [h]
  simp only [skipWs, List.dropWhile_cons_of_neg h']

theorem hexVal_hexDigitChar (n : Nat) (h : n < 16) :
    hexVal (hexDigitChar n) = some n := by
  interval_cases n <;> decide

theorem escChar_step (c : Char) (l rest : List Char)
    (ih : parseStrAux (escString l ++ '"' :: rest) = .ok (l, rest)) :
    parseStrAux (escChar c ++ (escString l ++ '"' :: rest)) = .ok (c :: l, rest) := by
  unfold escChar
  split_ifs with h1 h2 h3 h4 h5 h6 h7 h8
  · rw [beq_iff_eq] at h1; subst h1
    simp [parseStrAux, parseEscape, escCharFor, Except.map, ih]
  · rw [beq_iff_eq] at h2; subst h2
    simp [parseStrAux, parseEscape, escCharFor, Except.map, ih]
  · rw [beq_iff_eq] at h3; subst h3
    simp [parseStrAux, parseEscape, escCharFor, Except.map, ih]
  · rw [beq_iff_eq] at h4; subst h4
    simp [parseStrAux, parseEscape, escCharFor, Except.map, ih]
  · rw [beq_iff_eq] at h5; subst h5
    simp [parseStrAux, parseEscape, escCharFor, Except.map, ih]
  · rw [beq_iff_eq] at h6; subst h6
    simp [parseStrAux, parseEscape, escCharFor, Except.map, ih]
  · rw [beq_iff_eq] at h7; subst h7
    simp [parseStrAux, parseEscape, escCharFor, Except.map, ih]
  · -- `\u00XY` escape for a control character
    have hdiv : c.toNat / 16 < 16 := by omega
    have hmod : c.toNat % 16 < 16 := Nat.mod_lt _ (by omega)
    have harith : c.toNat / 16 * 16 + c.toNat % 16 = c.toNat := by omega
    simp [parseStrAux, parseEscape, escCharFor, parseHex4, Except.map,
      hexVal_hexDigitChar _ hdiv, hexVal_hexDigitChar _ hmod,
      show hexVal '0' = some 0 from by decide, harith, Char.ofNat_toNat, ih]
  · -- ordinary character, emitted verbatim
    simp [parseStrAux, h1, h2, Except.map, ih]

theorem escString_round (l rest : List Char) :
    parseStrAux (escString l ++ '"' :: rest) = .ok (l, rest) := by
  induction l with
  | nil => simp [escString, parseStrAux]
  | cons c cs ih =>
    have := escChar_step c cs rest ih
    simpa [escString, List.append_assoc] using this

theorem mk_data_eq (s : String) : String.mk s.data = s := rfl

theorem parseVal_ws (fuel : Nat) (ws cs : List Char)
    (h : ∀ c ∈ ws, isJsonWs c = true) :
    parseVal fuel (ws ++ cs) = parseVal fuel cs := by
  cases fuel with
  | zero => rfl
  | succ n => rw [parseVal, parseVal, skipWs_append_ws ws cs h]

theorem parseElems_ws (fuel : Nat) (ws cs : List Char)
    (h : ∀ c ∈ ws, isJsonWs c = true) :
    parseElems fuel (ws ++ cs) = parseElems fuel cs := by
  cases fuel with
  | zero => rfl
  | succ n => rw [parseElems, parseElems, parseVal_ws n ws cs h]

theorem parseMembers_ws (fuel : Nat) (ws cs : List Char)
    (h : ∀ c ∈ ws, isJsonWs c = true) :
    parseMembers fuel (ws ++ cs) = parseMembers fuel cs := by
  cases fuel with
  | zero => rfl
  | succ n => rw [parseMembers, parseMembers, skipWs_append_ws ws cs h]

theorem dumpVal_head (ind : Nat) (v : JVal) :
    ∃ c cs, dumpVal ind v = c :: cs ∧ isJsonWs c = false ∧
      (c == ']') = false ∧ (c == '}') = false := by
  cases v with
  | null =>
    exact ⟨'n', ['u', 'l', 'l'], by simp [dumpVal], by decide, by decide, by decide⟩
  | bool b =>
    cases b with
    | true =>
      exact ⟨'t', ['r', 'u', 'e'], by simp [dumpVal], by decide, by decide, by decide⟩
    | false =>
      exact ⟨'f', ['a', 'l', 's', 'e'], by simp [dumpVal], by decide, by decide, by decide⟩
  | str s =>
    exact ⟨'"', escString s.data ++ ['"'], by simp [dumpVal], by decide, by decide,
      by decide⟩
  | arr xs =>
    cases xs with
    | nil => exact ⟨'[', [']'], by simp [dumpVal], by decide, by decide, by decide⟩
    | cons v vs =>
      exact ⟨'[', nlIndent (ind + 2) ++ (dumpVal (ind + 2) v ++
        (dumpElems (ind + 2) vs ++ (nlIndent ind ++ [']']))),
        by simp [dumpVal], by decide, by decide, by decide⟩
  | obj ms =>
    match ms with
    | [] => exact ⟨'{', ['}'], by simp [dumpVal], by decide, by decide, by decide⟩
    | (k, v) :: ms =>
      exact ⟨'{', nlIndent (ind + 2) ++ (dumpMember (ind + 2) k v ++
        (dumpMembers (ind + 2) ms ++ (nlIndent ind ++ ['}']))),
        by simp [dumpVal], by decide, by decide, by decide⟩

theorem jwV_pos (v : JVal) : 1 ≤ jwV v := by
  cases v with
  | null => simp [jwV]
  | bool b => simp [jwV]
  | str s => simp [jwV]
  | arr xs => cases xs <;> (simp only [jwV]; omega)
  | obj ms => cases ms <;> (simp only [jwV]; omega)

theorem jwE_pos (v : JVal) (vs : List JVal) : 1 ≤ jwE v vs := by
  cases vs <;> (simp only [jwE]; omega)

theorem jwM_pos (kv : String × JVal) (ms : List (String × JVal)) :
    1 ≤ jwM kv ms := by
  obtain ⟨k, v⟩ := kv
  cases ms <;> (simp only [jwM]; omega)

set_option maxHeartbeats 1000000 in
theorem parse_dump (fuel : Nat) :
    (∀ v ind rest, jwV v ≤ fuel →
      parseVal fuel (dumpVal ind v ++ rest) = .ok (v, rest)) ∧
    (∀ v vs ind m rest, jwE v vs ≤ fuel →
      parseElems fuel (dumpVal ind v ++ (dumpElems ind vs ++ (nlIndent m ++ ']' :: rest))) =
        .ok (v :: vs, rest)) ∧
    (∀ k v ms ind m rest, jwM (k, v) ms ≤ fuel →
      parseMembers fuel (dumpMember ind k v ++ (dumpMembers ind ms ++ (nlIndent m ++ '}' :: rest))) =
        .ok ((k, v) :: ms, rest)) := by
  induction fuel with
  | zero =>
    refine ⟨fun v ind rest h => absurd h (by have := jwV_pos v; omega),
      fun v vs ind m rest h => absurd h (by have := jwE_pos v vs; omega),
      fun k v ms ind m rest h => absurd h (by have := jwM_pos (k, v) ms; omega)⟩
  | succ n ih =>
    obtain ⟨ihV, ihE, ihM⟩ := ih
    refine ⟨?_, ?_, ?_⟩
    · intro v ind rest hw
      cases v with
      | null => simp [dumpVal, parseVal, skipWs, isJsonWs]
      | bool b => cases b <;> simp [dumpVal, parseVal, skipWs, isJsonWs]
      | str s =>
        simp [dumpVal, parseVal, skipWs, isJsonWs, List.append_assoc,
          escString_round s.data rest, mk_data_eq]
      | arr xs =>
        cases xs with
        | nil => simp [dumpVal, parseVal, skipWs, isJsonWs]
        | cons v vs =>
          have hw' : jwE v vs ≤ n := by simp only [jwV] at hw; omega
          obtain ⟨c, cs0, hd, hws, hne1, _⟩ := dumpVal_head (ind + 2) v
          have hskip : skipWs (nlIndent (ind + 2) ++ (dumpVal (ind + 2) v ++
              (dumpElems (ind + 2) vs ++ (nlIndent ind ++ ']' :: rest)))) =
              dumpVal (ind + 2) v ++
              (dumpElems (ind + 2) vs ++ (nlIndent ind ++ ']' :: rest)) := by
            rw [skipWs_append_ws _ _ (nlIndent_ws _), hd, List.cons_append,
              skipWs_cons_of_neg _ hws]
          have hcond : ((dumpVal (ind + 2) v ++
              (dumpElems (ind + 2) vs ++ (nlIndent ind ++ ']' :: rest))).headD ' ' == ']')
              = false := by
            rw [hd, List.cons_append]; simpa using hne1
          simp only [dumpVal, List.cons_append, List.append_assoc, List.nil_append]
          rw [parseVal]
          rw [skipWs_cons_of_neg _ (by decide : isJsonWs '[' = false)]
          simp only [hskip, hcond, Bool.false_eq_true, if_false,
            ihE v vs (ind + 2) ind rest hw']
      | obj ms =>
        match ms with
        | [] => simp [dumpVal, parseVal, skipWs, isJsonWs]
        | (k, v) :: ms =>
          have hw' : jwM (k, v) ms ≤ n := by simp only [jwV] at hw; omega
          have hskip : skipWs (nlIndent (ind + 2) ++ (dumpMember (ind + 2) k v ++
              (dumpMembers (ind + 2) ms ++ (nlIndent ind ++ '}' :: rest)))) =
              dumpMember (ind + 2) k v ++
              (dumpMembers (ind + 2) ms ++ (nlIndent ind ++ '}' :: rest)) := by
            rw [skipWs_append_ws _ _ (nlIndent_ws _)]
            rw [dumpMember, List.cons_append, skipWs_cons_of_neg _ (by decide)]
          have hcond : ((dumpMember (ind + 2) k v ++
              (dumpMembers (ind + 2) ms ++ (nlIndent ind ++ '}' :: rest))).headD ' ' == '}')
              = false := by
            rw [dumpMember, List.cons_append]; simp
          simp only [dumpVal, List.cons_append, List.append_assoc, List.nil_append]
          rw [parseVal]
          rw [skipWs_cons_of_neg _ (by decide : isJsonWs '{' = false)]
          simp only [hskip, hcond, Bool.false_eq_true, if_false,
            ihM k v ms (ind + 2) ind rest hw']
    · intro v vs ind m rest hw
      have hwV : jwV v ≤ n := by
        cases vs <;> (simp only [jwE] at hw; omega)
      rw [parseElems]
      rw [show dumpVal ind v ++ (dumpElems ind vs ++ (nlIndent m ++ ']' :: rest)) =
        dumpVal ind v ++ (dumpElems ind vs ++ (nlIndent m ++ ']' :: rest)) from rfl]
      rw [ihV v ind _ hwV]
      cases vs with
      | nil =>
        simp only [dumpElems, List.nil_append]
        rw [skipWs_append_ws _ _ (nlIndent_ws _), skipWs_cons_of_neg _ (by decide)]
        simp
      | cons w ws =>
        have hwE : jwE w ws ≤ n := by simp only [jwE] at hw; omega
        simp only [dumpElems, List.cons_append, List.append_assoc]
        rw [skipWs_cons_of_neg _ (by decide : isJsonWs ',' = false)]
        have := parseElems_ws n (nlIndent ind)
          (dumpVal ind w ++ (dumpElems ind ws ++ (nlIndent m ++ ']' :: rest)))
          (nlIndent_ws ind)
        simp only [List.append_assoc] at this
        simp [this, ihE w ws ind m rest hwE]
    · intro k v ms ind m rest hw
      have hwV : jwV v ≤ n := by
        cases ms <;> (simp only [jwM] at hw; omega)
      rw [parseMembers]
      simp only [dumpMember, List.cons_append, List.append_assoc]
      rw [skipWs_cons_of_neg _ (by decide : isJsonWs '"' = false)]
      have hstr := escString_round k.data
        (':' :: ' ' :: (dumpVal ind v ++ (dumpMembers ind ms ++ (nlIndent m ++ '}' :: rest))))
      have hcolon : skipWs (':' :: ' ' :: (dumpVal ind v ++
          (dumpMembers ind ms ++ (nlIndent m ++ '}' :: rest)))) =
          ':' :: ' ' :: (dumpVal ind v ++
          (dumpMembers ind ms ++ (nlIndent m ++ '}' :: rest))) :=
        skipWs_cons_of_neg _ (by decide)
      have hsp : parseVal n (' ' :: (dumpVal ind v ++
          (dumpMembers ind ms ++ (nlIndent m ++ '}' :: rest)))) =
          parseVal n (dumpVal ind v ++
          (dumpMembers ind ms ++ (nlIndent m ++ '}' :: rest))) := by
        have h := parseVal_ws n [' '] (dumpVal ind v ++
          (dumpMembers ind ms ++ (nlIndent m ++ '}' :: rest))) (by decide)
        simpa using h
      have hskipM : skipWs (nlIndent m ++ ('}' :: rest)) = '}' :: rest := by
        rw [skipWs_append_ws _ _ (nlIndent_ws _), skipWs_cons_of_neg _ (by decide)]
      cases ms with
      | nil =>
        simp only [dumpMembers, List.nil_append] at hstr hcolon hsp ⊢
        simp [hstr, hcolon, hsp, ihV v ind _ hwV, hskipM, mk_data_eq]
      | cons kv' ms' =>
        obtain ⟨k', v'⟩ := kv'
        have hw2 : jwM (k', v') ms' ≤ n := by simp only [jwM] at hw; omega
        have hws2 := parseMembers_ws n (nlIndent ind)
          (dumpMember ind k' v' ++ (dumpMembers ind ms' ++ (nlIndent m ++ '}' :: rest)))
          (nlIndent_ws ind)
        have hcomma : skipWs (',' :: (nlIndent ind ++ (dumpMember ind k' v' ++
            (dumpMembers ind ms' ++ (nlIndent m ++ '}' :: rest))))) =
            ',' :: (nlIndent ind ++ (dumpMember ind k' v' ++
            (dumpMembers ind ms' ++ (nlIndent m ++ '}' :: rest)))) :=
          skipWs_cons_of_neg _ (by decide)
        simp only [dumpMembers, List.cons_append, List.append_assoc] at hstr hcolon hsp ⊢
        simp [hstr, hcolon, hsp, ihV v ind _ hwV, mk_data_eq, hcomma,
          List.append_assoc, hws2, ihM k' v' ms' ind m rest hw2]

theorem jw_le_len (N : Nat) :
    (∀ v ind, jwV v ≤ N → jwV v ≤ (dumpVal ind v).length) ∧
    (∀ v vs ind, jwE v vs ≤ N →
      jwE v vs ≤ 2 + (dumpVal ind v).length + (dumpElems ind vs).length) ∧
    (∀ k v ms ind, jwM (k, v) ms ≤ N →
      jwM (k, v) ms ≤ 2 + (dumpMember ind k v).length + (dumpMembers ind ms).length) := by
  induction N with
  | zero =>
    refine ⟨fun v ind h => absurd h (by have := jwV_pos v; omega),
      fun v vs ind h => absurd h (by have := jwE_pos v vs; omega),
      fun k v ms ind h => absurd h (by have := jwM_pos (k, v) ms; omega)⟩
  | succ n ih =>
    obtain ⟨ihV, ihE, ihM⟩ := ih
    refine ⟨?_, ?_, ?_⟩
    · intro v ind hw
      cases v with
      | null => simp [jwV, dumpVal]
      | bool b => cases b <;> simp [jwV, dumpVal]
      | str s => simp [jwV, dumpVal]
      | arr xs =>
        cases xs with
        | nil => simp [jwV, dumpVal]
        | cons v vs =>
          have hw' : jwE v vs ≤ n := by simp only [jwV] at hw; omega
          have h := ihE v vs (ind + 2) hw'
          simp only [jwV, dumpVal, List.length_cons, List.length_append,
            nlIndent, List.length_replicate]
          omega
      | obj ms =>
        match ms with
        | [] => simp [jwV, dumpVal]
        | (k, v) :: ms =>
          have hw' : jwM (k, v) ms ≤ n := by simp only [jwV] at hw; omega
          have h := ihM k v ms (ind + 2) hw'
          simp only [jwV, dumpVal, List.length_cons, List.length_append,
            nlIndent, List.length_replicate]
          omega
    · intro v vs ind hw
      cases vs with
      | nil =>
        have hwV : jwV v ≤ n := by simp only [jwE] at hw; omega
        have h := ihV v ind hwV
        simp only [jwE, dumpElems, List.length_nil]
        omega
      | cons w ws =>
        have hwV : jwV v ≤ n := by simp only [jwE] at hw; omega
        have hwE : jwE w ws ≤ n := by simp only [jwE] at hw; omega
        have h1 := ihV v ind hwV
        have h2 := ihE w ws ind hwE
        simp only [jwE, dumpElems, List.length_cons, List.length_append,
          nlIndent, List.length_replicate] at h2 ⊢
        omega
    · intro k v ms ind hw
      cases ms with
      | nil =>
        have hwV : jwV v ≤ n := by simp only [jwM] at hw; omega
        have h := ihV v ind hwV
        simp only [jwM, dumpMember, dumpMembers, List.length_nil,
          List.length_cons, List.length_append]
        omega
      | cons kv' ms' =>
        obtain ⟨k', v'⟩ := kv'
        have hwV : jwV v ≤ n := by simp only [jwM] at hw; omega
        have hwM : jwM (k', v') ms' ≤ n := by simp only [jwM] at hw; omega
        have h1 := ihV v ind hwV
        have h2 := ihM k' v' ms' ind hwM
        simp only [jwM, dumpMember, dumpMembers, List.length_cons,
          List.length_append, nlIndent, List.length_replicate] at h2 ⊢
        omega

/-- The dumper's output always reparses: the fuel `length + 1` suffices
because the recursion-depth weight of a value is bounded by the length of
its rendering. -/
theorem jsonLoad_dump (v : JVal) : jsonLoad (String.mk (dumpVal 0 v)) = .ok v := by
  have hlen : jwV v ≤ (dumpVal 0 v).length := (jw_le_len (jwV v)).1 v 0 le_rfl
  have h := (parse_dump ((dumpVal 0 v).length + 1)).1 v 0 [] (by omega)
  rw [List.append_nil] at h
  simp [jsonLoad, h, skipWs]

/-- Claim C6: for any mapping from character identifier to Persona Profile
record, the Persona Store round trip holds exactly —
`load_personas (save_personas profiles)` succeeds and returns precisely the
serialized mapping document (the dict of `model_dump()` dicts that
`json.dump` received), non-ASCII content included, since the theorem
quantifies over arbitrary Unicode field contents. -/
theorem persona_store_round_trip (profiles : List (String × PersonaProfile)) :
    load_personas (save_personas profiles) = .ok (storeDump profiles) :=
  jsonLoad_dump (storeDump profiles)

end GenshinTranslator

namespace GenshinTranslator

theorem alookup_cons_self (k : String) (p : PersonaProfile)
    (res : List (String × PersonaProfile)) : alookup ((k, p) :: res) k = some p := by
  simp [alookup, List.find?]

theorem alookup_cons_ne (k k' : String) (p : PersonaProfile)
    (res : List (String × PersonaProfile)) (h : (k == k') = false) :
    alookup ((k, p) :: res) k' = alookup res k' := by
  simp [alookup, List.find?, h]

theorem targetLangOk_of (tl : String) (h : tl = "en" ∨ tl = "id") :
    targetLangOk tl = true := by
  rcases h with h | h <;> (subst h; rfl)

theorem processGroup_ok (g : String → String → String)
    (jl : String → Except String JVal) (k tl : String) (maxL : Nat)
    (lines : List String) (htl : tl = "en" ∨ tl = "id") :
    ∃ p, processGroup (fun s u => .ok (g s u)) jl k tl maxL lines = .ok p ∧
      ((∃ e, handleResponse jl k tl
          (g learnSystem (learnUserPrompt maxL tl k (sample_block lines))) = .error e) →
        p = fallbackProfile k tl) := by
  cases hh : handleResponse jl k tl
      (g learnSystem (learnUserPrompt maxL tl k (sample_block lines))) with
  | ok p =>
    refine ⟨p, ?_, ?_⟩
    · simp [processGroup, hh]
    · rintro ⟨e, he⟩
      simp [hh] at he
  | error err =>
    refine ⟨fallbackProfile k tl, ?_, fun _ => rfl⟩
    simp [processGroup, hh, mkPersonaProfile, targetLangOk_of tl htl, fallbackProfile]

/-- The learner's loop, characterized: under a gateway that always returns
text and a valid target language it succeeds, the mapping covers exactly
the keys with at least one usable line, and each covered key holds the
result of its group's response processing. -/
theorem learnGroups_char (g : String → String → String)
    (jl : String → Except String JVal) (tl : String) (maxL : Nat)
    (lns : String → List String) (htl : tl = "en" ∨ tl = "id") :
    ∀ ks : List String, ∃ res,
      learnGroups (fun s u => .ok (g s u)) jl tl maxL lns ks = .ok res ∧
      ∀ k, ((k ∉ ks ∨ lns k = []) → alookup res k = none) ∧
        (k ∈ ks → lns k ≠ [] →
          ∃ p, processGroup (fun s u => .ok (g s u)) jl k tl maxL (lns k) = .ok p ∧
            alookup res k = some p) := by
  intro ks
  induction ks with
  | nil =>
    refine ⟨[], rfl, fun k => ⟨fun _ => rfl, fun hk => absurd hk (List.not_mem_nil k)⟩⟩
  | cons k0 ks ih =>
    obtain ⟨res, hres, hch⟩ := ih
    by_cases hke : (lns k0).isEmpty
    · have hk0 : lns k0 = [] := List.isEmpty_iff.mp hke
      refine ⟨res, by simp [learnGroups, hke, hres], fun k => ⟨?_, ?_⟩⟩
      · intro h
        rcases h with h | h
        · exact (hch k).1 (Or.inl (fun hk => h (List.mem_cons_of_mem k0 hk)))
        · exact (hch k).1 (Or.inr h)
      · intro hk hne
        rcases List.mem_cons.mp hk with h | h
        · subst h; exact absurd hk0 hne
        · exact (hch k).2 h hne
    · obtain ⟨p0, hp0, _⟩ := processGroup_ok g jl k0 tl maxL (lns k0) htl
      refine ⟨(k0, p0) :: res, by simp [learnGroups, hke, hp0, hres], fun k => ⟨?_, ?_⟩⟩
      · intro h
        have hkne : (k0 == k) = false := by
          rcases h with h | h
          · simp only [beq_eq_false_iff_ne, ne_eq]
            intro hkk; exact h (hkk ▸ List.mem_cons_self k0 ks)
          · simp only [beq_eq_false_iff_ne, ne_eq]
            intro hkk
            exact hke (by rw [hkk]; exact List.isEmpty_iff.mpr h)
        rw [alookup_cons_ne k0 k p0 res hkne]
        rcases h with h | h
        · exact (hch k).1 (Or.inl (fun hk => h (List.mem_cons_of_mem k0 hk)))
        · exact (hch k).1 (Or.inr h)
      · intro hk hne
        by_cases heq : k0 = k
        · subst heq
          exact ⟨p0, hp0, alookup_cons_self k0 p0 res⟩
        · have hkne : (k0 == k) = false := by simpa using heq
          rcases List.mem_cons.mp hk with h | h
          · exact absurd h.symm heq
          · obtain ⟨p, hp, hl⟩ := (hch k).2 h hne
            exact ⟨p, hp, by rw [alookup_cons_ne k0 k p0 res hkne]; exact hl⟩

/-- Claim C1: with a valid target language, for every character group with
at least one usable sample line, if the gateway's returned text fails the
response-handling pipeline (not valid JSON between the first brace and last
brace, schema violation, or any other exception), the Persona Learner does
not raise: it substitutes the fallback minimal profile (tone "neutral",
empty quirks) for that character and still returns a complete mapping
covering all such groups. -/
theorem persona_learner_fallback_isolation
    (g : String → String → String) (json_loads : String → Except String JVal)
    (df : DataFrame) (char_col src_col tgt_col target_lang : String)
    (maxL : Nat) (max_chars : Option Nat)
    (htl : target_lang = "en" ∨ target_lang = "id")
    (hcols : missingColumnsOf df.columns char_col src_col tgt_col = []) :
    ∃ res, learn_personas_from_csv (fun s u => .ok (g s u)) json_loads df
        char_col src_col tgt_col target_lang maxL max_chars = .ok res ∧
      ∀ k ∈ groupKeysOf (effRows df.rows max_chars) char_col,
        usableLines (effRows df.rows max_chars) char_col tgt_col k maxL ≠ [] →
        ∃ p, alookup res k = some p ∧
          ((∃ e, handleResponse json_loads k target_lang
              (g learnSystem (learnUserPrompt maxL target_lang k
                (sample_block (usableLines (effRows df.rows max_chars)
                  char_col tgt_col k maxL)))) = .error e) →
            p = fallbackProfile k target_lang) := by
  obtain ⟨res, hres, hch⟩ := learnGroups_char g json_loads target_lang maxL
    (fun k => usableLines (effRows df.rows max_chars) char_col tgt_col k maxL) htl
    (groupKeysOf (effRows df.rows max_chars) char_col)
  refine ⟨res, ?_, ?_⟩
  · simpa [learn_personas_from_csv, hcols] using hres
  · intro k hk hne
    obtain ⟨p, hp, hl⟩ := (hch k).2 hk hne
    obtain ⟨p', hp', hfb⟩ := processGroup_ok g json_loads k target_lang maxL
      (usableLines (effRows df.rows max_chars) char_col tgt_col k maxL) htl
    have hpp : p = p' := by
      have h2 := hp.symm.trans hp'
      exact (Except.ok.injEq _ _).mp h2
    exact ⟨p, hl, fun hf => hpp ▸ hfb hf⟩

theorem persona_learner_fallback_isolation_witness :
    ∃ res, learn_personas_from_csv (fun s u => .ok ((fun _ _ => "no json here") s u))
        jlFail dfOne "character_id" "zh_cn" "id_id" "id" 30 none = .ok res ∧
      ∃ p, alookup res "A" = some p ∧ p = fallbackProfile "A" "id" := by
  obtain ⟨res, hres, hcov⟩ := persona_learner_fallback_isolation
    (fun _ _ => "no json here") jlFail dfOne "character_id" "zh_cn" "id_id" "id" 30 none
    (Or.inr rfl) rfl
  obtain ⟨p, hp, hfb⟩ := hcov "A" (by decide) (by decide)
  exact ⟨res, hres, p, hp, hfb ⟨"Expecting value", rfl⟩⟩

/-- Claim C2: the learner passes into each character's learning prompt
exactly the non-empty target-language values of that group, in original row
order, truncated to `max_lines_per_character` (the group's processing is a
function of precisely those lines, embedded via `sample_block` in the
prompt); a group yielding zero usable lines is skipped entirely — the run
still succeeds and no profile is emitted for it. -/
theorem persona_learner_sampling
    (g : String → String → String) (json_loads : String → Except String JVal)
    (df : DataFrame) (char_col src_col tgt_col target_lang : String)
    (maxL : Nat) (max_chars : Option Nat)
    (htl : target_lang = "en" ∨ target_lang = "id")
    (hcols : missingColumnsOf df.columns char_col src_col tgt_col = []) :
    ∃ res, learn_personas_from_csv (fun s u => .ok (g s u)) json_loads df
        char_col src_col tgt_col target_lang maxL max_chars = .ok res ∧
      ∀ k ∈ groupKeysOf (effRows df.rows max_chars) char_col,
        (specSampleLines (effRows df.rows max_chars) char_col tgt_col k maxL = [] →
          alookup res k = none) ∧
        (specSampleLines (effRows df.rows max_chars) char_col tgt_col k maxL ≠ [] →
          ∃ p, processGroup (fun s u => .ok (g s u)) json_loads k target_lang maxL
              (specSampleLines (effRows df.rows max_chars) char_col tgt_col k maxL) =
              .ok p ∧
            alookup res k = some p) := by
  obtain ⟨res, hres, hch⟩ := learnGroups_char g json_loads target_lang maxL
    (fun k => usableLines (effRows df.rows max_chars) char_col tgt_col k maxL) htl
    (groupKeysOf (effRows df.rows max_chars) char_col)
  refine ⟨res, by simpa [learn_personas_from_csv, hcols] using hres,
    fun k hk => ⟨?_, ?_⟩⟩
  · intro hz
    exact (hch k).1 (Or.inr hz)
  · intro hne
    exact (hch k).2 hk hne

theorem persona_learner_sampling_witness :
    specSampleLines (effRows dfFive.rows none) "character_id" "id_id" "A" 2 =
      ["l1", "l2"] ∧
    (∃ res p,
      learn_personas_from_csv (fun s u => .ok ((fun _ _ => "junk") s u)) jlFail dfFive
        "character_id" "zh_cn" "id_id" "id" 2 none = .ok res ∧
      processGroup (fun s u => .ok ((fun _ _ => "junk") s u)) jlFail "A" "id" 2
        ["l1", "l2"] = .ok p ∧
      alookup res "A" = some p) ∧
    (∃ res2,
      learn_personas_from_csv (fun s u => .ok ((fun _ _ => "junk") s u)) jlFail dfSkip
        "character_id" "zh_cn" "id_id" "id" 30 none = .ok res2 ∧
      alookup res2 "B" = none) := by
  refine ⟨rfl, ?_, ?_⟩
  · obtain ⟨res, hres, hch⟩ := persona_learner_sampling (fun _ _ => "junk") jlFail
      dfFive "character_id" "zh_cn" "id_id" "id" 2 none (Or.inr rfl) rfl
    obtain ⟨p, hp, hl⟩ := (hch "A" (by decide)).2 (by decide)
    exact ⟨res, p, hres, by simpa using hp, hl⟩
  · obtain ⟨res2, hres2, hch2⟩ := persona_learner_sampling (fun _ _ => "junk") jlFail
      dfSkip "character_id" "zh_cn" "id_id" "id" 30 none (Or.inr rfl) rfl
    exact ⟨res2, hres2, (hch2 "B" (by decide)).1 (by decide)⟩

end GenshinTranslator

namespace GenshinTranslator

theorem mem_firstKeysAux (a : String) :
    ∀ (l seen : List String), a ∈ firstKeysAux seen l ↔ (a ∈ l ∧ a ∉ seen) := by
  intro l
  induction l with
  | nil => simp [firstKeysAux]
  | cons k ks ih =>
    intro seen
    by_cases hk : k ∈ seen
    · have hkc : seen.contains k = true := by simpa [List.elem_iff] using hk
      simp only [firstKeysAux, hkc, if_true, ih, List.mem_cons]
      constructor
      · rintro ⟨h1, h2⟩
        exact ⟨Or.inr h1, h2⟩
      · rintro ⟨h1 | h1, h2⟩
        · exact absurd (h1 ▸ hk) h2
        · exact ⟨h1, h2⟩
    · have hkc : seen.contains k = false := by
        rw [← Bool.not_eq_true]
        simpa [List.elem_iff] using hk
      simp only [firstKeysAux, hkc, Bool.false_eq_true, if_false, List.mem_cons,
        ih (k :: seen)]
      constructor
      · rintro (h | ⟨h1, h2⟩)
        · exact ⟨Or.inl h, h ▸ hk⟩
        · exact ⟨Or.inr h1, fun hc => h2 (Or.inr hc)⟩
      · rintro ⟨h1 | h1, h2⟩
        · exact Or.inl h1
        · by_cases hak : a = k
          · exact Or.inl hak
          · exact Or.inr ⟨h1, fun hc => hc.elim hak h2⟩

theorem mem_firstKeys (a : String) (l : List String) :
    a ∈ firstKeys l ↔ a ∈ l := by
  simp [firstKeys, mem_firstKeysAux]

theorem mem_missingColumnsOf (cols : List String) (c1 c2 c3 c : String) :
    c ∈ missingColumnsOf cols c1 c2 c3 ↔ (c ∈ [c1, c2, c3] ∧ c ∉ cols) := by
  simp only [missingColumnsOf, List.mem_filter, mem_firstKeys,
    Bool.not_eq_true', ← Bool.not_eq_true, List.elem_iff]

/-- Claim C9: when any of the three named required columns is absent, the
Persona Learner fails with a "missing columns" error whose payload contains
exactly the absent required columns, and it does so before any gateway
interaction — the outcome is the same for every gateway and every JSON
decoder. -/
theorem persona_learner_missing_columns
    (df : DataFrame) (char_col src_col tgt_col target_lang : String)
    (maxL : Nat) (max_chars : Option Nat)
    (h : missingColumnsOf df.columns char_col src_col tgt_col ≠ []) :
    (∀ c, c ∈ missingColumnsOf df.columns char_col src_col tgt_col ↔
      (c ∈ [char_col, src_col, tgt_col] ∧ c ∉ df.columns)) ∧
    ∀ (llm_call : String → String → Except String String)
      (json_loads : String → Except String JVal),
      learn_personas_from_csv llm_call json_loads df char_col src_col tgt_col
        target_lang maxL max_chars =
      .error (.missingColumns (missingColumnsOf df.columns char_col src_col tgt_col)) := by
  refine ⟨fun c => mem_missingColumnsOf df.columns char_col src_col tgt_col c, ?_⟩
  intro llm_call json_loads
  cases hm : missingColumnsOf df.columns char_col src_col tgt_col with
  | nil => exact absurd hm h
  | cons c cs => simp [learn_personas_from_csv, hm]

theorem persona_learner_missing_columns_witness :
    missingColumnsOf dfNoCol.columns "character_id" "zh_cn" "id_id" ≠ [] ∧
    ("id_id" ∈ missingColumnsOf dfNoCol.columns "character_id" "zh_cn" "id_id" ∧
      "zh_cn" ∉ missingColumnsOf dfNoCol.columns "character_id" "zh_cn" "id_id") ∧
    learn_personas_from_csv (fun _ _ => .ok "never used") jlFail dfNoCol
      "character_id" "zh_cn" "id_id" "id" 30 none =
      .error (.missingColumns ["id_id"]) := by
  have h := persona_learner_missing_columns dfNoCol "character_id" "zh_cn" "id_id"
    "id" 30 none (by decide)
  refine ⟨by decide, ⟨(h.1 "id_id").mpr (by decide), ?_⟩, ?_⟩
  · intro hc
    exact absurd ((h.1 "zh_cn").mp hc) (by decide)
  · have h2 := h.2 (fun _ _ => .ok "never used") jlFail
    simpa using h2

theorem jlookup_map_set (k : String) (v : JVal) :
    ∀ m : List (String × JVal), m.any (fun kv => kv.1 == k) = true →
      jlookup (m.map (fun kv => if kv.1 == k then (k, v) else kv)) k = some v := by
  intro m
  induction m with
  | nil => intro h; simp at h
  | cons kv m ih =>
    intro h
    cases hk : (kv.1 == k) with
    | true => simp [jlookup, List.find?, hk]
    | false =>
      have h' : m.any (fun kv => kv.1 == k) = true := by
        simpa [List.any_cons, hk] using h
      simpa [jlookup, List.find?, hk] using ih h'

theorem jlookup_append_set (k : String) (v : JVal) :
    ∀ m : List (String × JVal), m.any (fun kv => kv.1 == k) = false →
      jlookup (m ++ [(k, v)]) k = some v := by
  intro m
  induction m with
  | nil => intro _; simp [jlookup, List.find?]
  | cons kv m ih =>
    intro h
    have hk : (kv.1 == k) = false := by
      by_contra hc
      simp only [Bool.not_eq_false] at hc
      simp [List.any_cons, hc] at h
    have hm : m.any (fun kv => kv.1 == k) = false := by
      simpa [List.any_cons, hk] using h
    simpa [jlookup, List.find?, hk] using ih hm

theorem jlookup_jset (m : List (String × JVal)) (k : String) (v : JVal) :
    jlookup (jset m k v) k = some v := by
  cases hb : m.any (fun kv => kv.1 == k) with
  | true => simpa [jset, hb] using jlookup_map_set k v m hb
  | false => simpa [jset, hb] using jlookup_append_set k v m hb

theorem except_bind_ok {α β : Type} (a : α) (f : α → Except String β) :
    (Except.ok a : Except String α) >>= f = f a := rfl

theorem except_bind_error {α β : Type} (e : String) (f : α → Except String β) :
    (Except.error e : Except String α) >>= f = Except.error e := rfl

/-- With an invalid target language, the forced `target_lang` field makes
schema validation fail whatever else the decoded object contains. -/
theorem validateProfile_invalid (m : List (String × JVal)) (tl : String)
    (hset : jlookup m "target_lang" = some (.str tl))
    (htl : targetLangOk tl = false) :
    ∃ e, validateProfile m = .error e := by
  have htlf : reqStrField m "target_lang" = .ok tl := by
    simp [reqStrField, hset, asStr]
  cases hcid : reqStrField m "character_id" with
  | error e =>
    exact ⟨e, by unfold validateProfile; rw [hcid]; rfl⟩
  | ok cid =>
    refine ⟨"String should match pattern (en|id)", ?_⟩
    unfold validateProfile
    rw [hcid, htlf, except_bind_ok, except_bind_ok, htl]
    rfl

/-- With an invalid target language, response handling always raises: the
forced `target_lang` value fails the pattern no matter what the decoder
produced. -/
theorem handleResponse_invalid (jl : String → Except String JVal)
    (k tl raw : String) (htl : targetLangOk tl = false) :
    ∃ e, handleResponse jl k tl raw = .error e := by
  cases hj : jl (jsonCandidate raw) with
  | error e => exact ⟨e, by simp [handleResponse, hj]⟩
  | ok v =>
    cases v with
    | obj m =>
      obtain ⟨e, he⟩ := validateProfile_invalid
        (jset (jset m "character_id" (.str k)) "target_lang" (.str tl)) tl
        (jlookup_jset _ _ _) htl
      exact ⟨e, by simp [handleResponse, hj, he]⟩
    | null =>
      exact ⟨"TypeError: argument after ** must be a mapping",
        by simp [handleResponse, hj]⟩
    | bool b =>
      exact ⟨"TypeError: argument after ** must be a mapping",
        by simp [handleResponse, hj]⟩
    | str s =>
      exact ⟨"TypeError: argument after ** must be a mapping",
        by simp [handleResponse, hj]⟩
    | arr xs =>
      exact ⟨"TypeError: argument after ** must be a mapping",
        by simp [handleResponse, hj]⟩

theorem processGroup_invalid (g : String → String → String)
    (jl : String → Except String JVal) (k tl : String) (maxL : Nat)
    (lines : List String) (htl : targetLangOk tl = false) :
    processGroup (fun s u => .ok (g s u)) jl k tl maxL lines =
      .error (.validationError "String should match pattern (en|id)") := by
  obtain ⟨e, he⟩ := handleResponse_invalid jl k tl
    (g learnSystem (learnUserPrompt maxL tl k (sample_block lines))) htl
  simp [processGroup, he, mkPersonaProfile, htl]

theorem learnGroups_invalid (g : String → String → String)
    (jl : String → Except String JVal) (tl : String) (maxL : Nat)
    (lns : String → List String) (htl : targetLangOk tl = false) :
    ∀ ks : List String, (∃ k ∈ ks, lns k ≠ []) →
      learnGroups (fun s u => .ok (g s u)) jl tl maxL lns ks =
        .error (.validationError "String should match pattern (en|id)") := by
  intro ks
  induction ks with
  | nil => rintro ⟨k, hk, _⟩; exact absurd hk (List.not_mem_nil k)
  | cons k0 ks ih =>
    rintro ⟨k, hk, hne⟩
    by_cases hke : (lns k0).isEmpty
    · have : k ∈ ks := by
        rcases List.mem_cons.mp hk with h | h
        · exact absurd (h ▸ List.isEmpty_iff.mp hke) hne
        · exact h
      simp [learnGroups, hke, ih ⟨k, this, hne⟩]
    · simp [learnGroups, hke, processGroup_invalid g jl k0 tl maxL (lns k0) htl]

/-- Claim C10: calling the learner with a target language outside
`{"en", "id"}` raises a schema validation error as soon as a character
group with at least one usable sample line is processed — the fallback
branch itself fails the `^(en|id)$` pattern — so the no-raise guarantee of
the learner needs the `target_lang ∈ {"en", "id"}` precondition. -/
theorem persona_learner_invalid_target_lang
    (g : String → String → String) (json_loads : String → Except String JVal)
    (df : DataFrame) (char_col src_col tgt_col target_lang : String)
    (maxL : Nat) (max_chars : Option Nat)
    (htl : ¬(target_lang = "en" ∨ target_lang = "id"))
    (hcols : missingColumnsOf df.columns char_col src_col tgt_col = [])
    (hk : ∃ k ∈ groupKeysOf (effRows df.rows max_chars) char_col,
      usableLines (effRows df.rows max_chars) char_col tgt_col k maxL ≠ []) :
    learn_personas_from_csv (fun s u => .ok (g s u)) json_loads df char_col src_col
        tgt_col target_lang maxL max_chars =
      .error (.validationError "String should match pattern (en|id)") := by
  have htl' : targetLangOk target_lang = false := by
    rw [targetLangOk]
    push_neg at htl
    simp [htl.1, htl.2]
  have h := learnGroups_invalid g json_loads target_lang maxL
    (fun k => usableLines (effRows df.rows max_chars) char_col tgt_col k maxL) htl'
    (groupKeysOf (effRows df.rows max_chars) char_col) hk
  simpa [learn_personas_from_csv, hcols] using h

theorem persona_learner_invalid_target_lang_witness :
    learn_personas_from_csv (fun s u => .ok ((fun _ _ => "junk") s u)) jlFail dfOne
      "character_id" "zh_cn" "id_id" "fr" 30 none =
      .error (.validationError "String should match pattern (en|id)") :=
  persona_learner_invalid_target_lang (fun _ _ => "junk") jlFail dfOne
    "character_id" "zh_cn" "id_id" "fr" 30 none (by decide) rfl
    ⟨"A", by decide, by decide⟩

/-- A gateway error in the persona-learning loop is not caught: the
`llm_call` at line 90 sits outside the `try`, so the exception escapes
`learn_personas_from_csv` and aborts the whole run. -/
theorem learnGroups_gatewayError (e : String)
    (jl : String → Except String JVal) (tl : String) (maxL : Nat)
    (lns : String → List String) :
    ∀ ks : List String, (∃ k ∈ ks, lns k ≠ []) →
      learnGroups (fun _ _ => .error e) jl tl maxL lns ks =
        .error (.gatewayError e) := by
  intro ks
  induction ks with
  | nil => rintro ⟨k, hk, _⟩; exact absurd hk (List.not_mem_nil k)
  | cons k0 ks ih =>
    rintro ⟨k, hk, hne⟩
    by_cases hke : (lns k0).isEmpty
    · have : k ∈ ks := by
        rcases List.mem_cons.mp hk with h | h
        · exact absurd (h ▸ List.isEmpty_iff.mp hke) hne
        · exact h
      simp [learnGroups, hke, ih ⟨k, this, hne⟩]
    · simp [learnGroups, hke, processGroup]

/-- Claim C3, counterexample to the claim as stated: a single character
group whose gateway call fails makes the whole learning run abort with the
gateway error — processing does not continue and no fallback is
substituted. -/
theorem persona_learner_gateway_abort_cex :
    learn_personas_from_csv (fun _ _ => .error "boom") jlFail dfOne "character_id"
      "zh_cn" "id_id" "id" 30 none = .error (.gatewayError "boom") := by rfl

/-- Claim C3 as amended: during persona learning a backend/gateway error is
not recoverable at character granularity — the exception propagates out of
the per-group loop (the gateway call is outside the `try`) and the whole
learning run aborts with that error; per-character recovery applies only to
response parsing/validation failures. -/
theorem persona_learner_gateway_error_propagates
    (e : String) (json_loads : String → Except String JVal)
    (df : DataFrame) (char_col src_col tgt_col target_lang : String)
    (maxL : Nat) (max_chars : Option Nat)
    (hcols : missingColumnsOf df.columns char_col src_col tgt_col = [])
    (hk : ∃ k ∈ groupKeysOf (effRows df.rows max_chars) char_col,
      usableLines (effRows df.rows max_chars) char_col tgt_col k maxL ≠ []) :
    learn_personas_from_csv (fun _ _ => .error e) json_loads df char_col src_col
        tgt_col target_lang maxL max_chars = .error (.gatewayError e) := by
  have h := learnGroups_gatewayError e json_loads target_lang maxL
    (fun k => usableLines (effRows df.rows max_chars) char_col tgt_col k maxL)
    (groupKeysOf (effRows df.rows max_chars) char_col) hk
  simpa [learn_personas_from_csv, hcols] using h

theorem persona_learner_gateway_error_propagates_witness :
    learn_personas_from_csv (fun _ _ => .error "HTTP 503") jlFail dfSkip
      "character_id" "zh_cn" "id_id" "id" 30 none =
      .error (.gatewayError "HTTP 503") :=
  persona_learner_gateway_error_propagates "HTTP 503" jlFail dfSkip "character_id"
    "zh_cn" "id_id" "id" 30 none rfl ⟨"A", by decide, by decide⟩

end GenshinTranslator

namespace GenshinTranslator

theorem splitRuns_all_class (l : List Char) (hne : l ≠ [])
    (h : ∀ c ∈ l, isTokenChar c = true) : splitRuns l = [l] := by
  induction l with
  | nil => exact absurd rfl hne
  | cons c cs ih =>
    cases cs with
    | nil => rfl
    | cons d ds =>
      have hrec : splitRuns (d :: ds) = [d :: ds] :=
        ih (by simp) (fun x hx => h x (List.mem_cons_of_mem c hx))
      have hc : isTokenChar c = true := h c (List.mem_cons_self c _)
      have hd : isTokenChar d = true := h d (by simp)
      have hstep : splitRuns (c :: d :: ds) =
          match splitRuns (d :: ds) with
          | [] => [[c]]
          | run :: runs =>
            if isTokenChar c == isTokenChar (run.headD ' ') then (c :: run) :: runs
            else [c] :: run :: runs := rfl
      rw [hstep, hrec]
      simp [hc, hd]

theorem processRun_word (mapping : List (String × String)) (l : List Char)
    (hne : l ≠ []) (h : ∀ c ∈ l, isWordChar c = true) :
    processRun mapping l = (replToken mapping (String.mk l)).data := by
  obtain ⟨c, cs, rfl⟩ := List.exists_cons_of_ne_nil hne
  have hc : isWordChar c = true := h c (List.mem_cons_self c _)
  have hcls : isTokenChar c = true := by simp [isTokenChar, hc]
  have hdrop : (c :: cs).dropWhile (fun x => !isWordChar x) = c :: cs :=
    List.dropWhile_cons_of_neg (by simp [hc])
  have htake : (c :: cs).takeWhile (fun x => !isWordChar x) = [] := by
    simp [List.takeWhile_cons, hc]
  cases hrev : (c :: cs).reverse with
  | nil => exact absurd (List.reverse_eq_nil_iff.mp hrev) (by simp)
  | cons c' cs' =>
    have hc' : isWordChar c' = true := by
      have : c' ∈ (c :: cs).reverse := by rw [hrev]; exact List.mem_cons_self c' cs'
      exact h c' (List.mem_reverse.mp this)
    have hdrop' : (c' :: cs').dropWhile (fun x => !isWordChar x) = c' :: cs' :=
      List.dropWhile_cons_of_neg (by simp [hc'])
    have htake' : (c' :: cs').takeWhile (fun x => !isWordChar x) = [] := by
      simp [List.takeWhile_cons, hc']
    have hback : (c' :: cs').reverse = c :: cs := by
      rw [← hrev, List.reverse_reverse]
    simp [processRun, hcls, hdrop, htake, hrev, hdrop', htake', hback]

/-- Claim C7: for a token whose lower-cased form is in the effective
normalization map, the replacement's casing follows the original token — a
fully upper-case token yields the fully upper-cased canonical form, a
title-case token yields the capitalized canonical form, any other casing
yields the canonical form exactly as stored; in particular, under the
default map, normalize("UDAH") = "SUDAH", normalize("Udah") = "Sudah" and
normalize("udah") = "sudah". -/
theorem normalizer_casing_law (custom_map : Option (List (String × String)))
    (w canon : String) (hne : w.data ≠ [])
    (hword : ∀ c ∈ w.data, isWordChar c = true)
    (hmap : lookupAssocStr (effectiveMap custom_map) (pyLower w) = some canon) :
    (normalize_indonesian w custom_map =
      (if pyIsUpper w then pyUpper canon
       else if pyIsTitle w then pyCapitalize canon
       else canon)) ∧
    normalize_indonesian "UDAH" none = "SUDAH" ∧
    normalize_indonesian "Udah" none = "Sudah" ∧
    normalize_indonesian "udah" none = "sudah" := by
  refine ⟨?_, rfl, rfl, rfl⟩
  have hcls : ∀ c ∈ w.data, isTokenChar c = true := by
    intro c hc
    simp [isTokenChar, hword c hc]
  have h1 : splitRuns w.data = [w.data] := splitRuns_all_class w.data hne hcls
  have h2 : processRun (effectiveMap custom_map) w.data =
      (replToken (effectiveMap custom_map) (String.mk w.data)).data :=
    processRun_word (effectiveMap custom_map) w.data hne hword
  rw [normalize_indonesian, h1]
  simp only [List.map_cons, List.map_nil, List.flatten, List.append_nil, h2,
    mk_data_eq]
  unfold replToken
  rw [hmap]
  unfold matchCasing
  rfl

theorem normalizer_casing_law_witness :
    "Udah".data ≠ [] ∧
    lookupAssocStr (effectiveMap none) (pyLower "Udah") = some "sudah" ∧
    normalize_indonesian "Udah" none =
      (if pyIsUpper "Udah" then pyUpper "sudah"
       else if pyIsTitle "Udah" then pyCapitalize "sudah"
       else "sudah") := by
  have h := normalizer_casing_law none "Udah" "sudah" (by decide) (by decide) rfl
  exact ⟨by decide, rfl, h.1⟩

end GenshinTranslator

namespace GenshinTranslator

/-- Claim C4: row selection and write policy of the Translation Filler
(both the CLI loop and the web front end's loop): a blank source cell
leaves the target cell unchanged; a non-blank target cell with the
overwrite flag off leaves it unchanged; a non-blank target cell with the
overwrite flag on (and a translatable source) gets replaced with the new
translation (the gateway output, normalized when KBBI post-processing is
enabled). -/
theorem translation_filler_row_policy
    (llm_call : String → String → Except String String)
    (normalizer : String → Except String String)
    (persona : List (String × JVal)) (overwrite kbbi no_training use_kbbi : Bool)
    (custom_map : Option (List (String × String))) (trans_lang : String)
    (r : FillRow) :
    (isBlank (r.src.getD "") = true →
      (fill_row_step llm_call persona overwrite kbbi custom_map r).1 = r ∧
      (st_row_step llm_call normalizer persona no_training use_kbbi overwrite
        trans_lang r).1 = r) ∧
    (isBlank (r.tgt.getD "") = false → overwrite = false →
      (fill_row_step llm_call persona overwrite kbbi custom_map r).1 = r ∧
      (st_row_step llm_call normalizer persona no_training use_kbbi overwrite
        trans_lang r).1 = r) ∧
    (∀ out, isBlank (r.tgt.getD "") = false → overwrite = true →
      isBlank (r.src.getD "") = false →
      llm_call fillSystem (fillBuildUser (r.src.getD "") persona "id") = .ok out →
      (fill_row_step llm_call persona overwrite kbbi custom_map r).1 =
        { r with tgt := some (if kbbi then normalize_indonesian out custom_map
                              else out) }) ∧
    (∀ out, isBlank (r.tgt.getD "") = false → overwrite = true →
      isBlank (r.src.getD "") = false →
      llm_call fillSystem (stBuildUser (r.src.getD "")
        (if !no_training && !persona.isEmpty then persona else [])
        trans_lang) = .ok out →
      (st_row_step llm_call normalizer persona no_training use_kbbi overwrite
        trans_lang r).1 =
        { r with tgt := some (if use_kbbi && trans_lang == "id" then
            (match normalizer out with | .ok o => o | .error _ => out)
          else out) }) := by
  refine ⟨?_, ?_, ?_, ?_⟩
  · intro hsrc
    constructor <;> simp [fill_row_step, st_row_step, hsrc]
  · intro htgt how
    by_cases hsrc : isBlank (r.src.getD "") = true
    · constructor <;> simp [fill_row_step, st_row_step, hsrc]
    · have hsrc' : isBlank (r.src.getD "") = false := by simpa using hsrc
      constructor <;> simp [fill_row_step, st_row_step, hsrc', htgt, how]
  · intro out htgt how hsrc hllm
    simp [fill_row_step, hsrc, htgt, how, hllm]
  · intro out htgt how hsrc hllm
    simp [st_row_step, hsrc, htgt, how, hllm]

theorem translation_filler_row_policy_witness :
    (fill_row_step (fun _ _ => .ok "Halo") [] false false none
      (⟨none, some "keep"⟩ : FillRow)).1 = ⟨none, some "keep"⟩ ∧
    (fill_row_step (fun _ _ => .ok "Halo") [] false false none frKept).1 = frKept ∧
    (fill_row_step (fun _ _ => .ok "Halo") [] true false none frKept).1 =
      ⟨some "你好", some "Halo"⟩ := by
  have h1 := (translation_filler_row_policy (fun _ _ => .ok "Halo")
    (fun s => .ok s) [] false false false false none "id" ⟨none, some "keep"⟩).1
    (by decide)
  have h2 := (translation_filler_row_policy (fun _ _ => .ok "Halo")
    (fun s => .ok s) [] false false false false none "id" frKept).2.1
    (by decide) rfl
  have h3 := ((translation_filler_row_policy (fun _ _ => .ok "Halo")
    (fun s => .ok s) [] true false false false none "id" frKept).2.2.1)
    "Halo" (by decide) rfl (by decide) rfl
  exact ⟨h1.1, h2.1, by simpa using h3⟩

/-- Claim C5: a gateway failure on one row leaves that row's target cell at
its prior value (unwritten when previously empty in the CLI loop; the same
string value in the web loop, which writes the stringified prior value
back), reports the error, and the batch maps over the remaining rows
untouched — a single row's failure never aborts the batch. -/
theorem translation_filler_error_isolation
    (llm_call : String → String → Except String String)
    (normalizer : String → Except String String)
    (persona : List (String × JVal)) (overwrite kbbi no_training use_kbbi : Bool)
    (custom_map : Option (List (String × String))) (trans_lang : String)
    (r : FillRow) (e : String) (pre post : List FillRow)
    (hsrc : isBlank (r.src.getD "") = false)
    (hsel : isBlank (r.tgt.getD "") = true ∨ overwrite = true)
    (herr : llm_call fillSystem (fillBuildUser (r.src.getD "") persona "id") =
      .error e) :
    fill_row_step llm_call persona overwrite kbbi custom_map r = (r, some e) ∧
    fill_rows llm_call persona overwrite kbbi custom_map (pre ++ r :: post) =
      fill_rows llm_call persona overwrite kbbi custom_map pre ++
        r :: fill_rows llm_call persona overwrite kbbi custom_map post ∧
    e ∈ fill_reports llm_call persona overwrite kbbi custom_map (pre ++ r :: post) ∧
    (∀ rows, (fill_rows llm_call persona overwrite kbbi custom_map rows).length =
      rows.length) ∧
    (∀ e2, llm_call fillSystem (stBuildUser (r.src.getD "")
        (if !no_training && !persona.isEmpty then persona else [])
        trans_lang) = .error e2 →
      (st_row_step llm_call normalizer persona no_training use_kbbi overwrite
          trans_lang r).1.tgt.getD "" = r.tgt.getD "" ∧
      (st_row_step llm_call normalizer persona no_training use_kbbi overwrite
          trans_lang r).2 = some ("ERROR " ++ e2)) := by
  have hstep : fill_row_step llm_call persona overwrite kbbi custom_map r =
      (r, some e) := by
    rcases hsel with hsel | hsel
    · simp [fill_row_step, hsrc, hsel, herr]
    · simp [fill_row_step, hsrc, hsel, herr]
  refine ⟨hstep, ?_, ?_, ?_, ?_⟩
  · simp [fill_rows, hstep]
  · simp [fill_reports, hstep]
  · intro rows
    simp [fill_rows]
  · intro e2 herr2
    rcases hsel with hsel | hsel
    · constructor <;> simp [st_row_step, hsrc, hsel, herr2]
    · constructor <;> simp [st_row_step, hsrc, hsel, herr2]

theorem translation_filler_error_isolation_witness :
    fill_row_step (fun _ _ => .error "api down") [] true false none frKept =
      (frKept, some "api down") ∧
    fill_rows (fun _ _ => .error "api down") [] true false none [frFresh, frKept] =
      [frFresh, frKept] ∧
    (st_row_step (fun _ _ => .error "api down") (fun s => .ok s) [] false false true
      "id" frKept).1.tgt.getD "" = "old" := by
  have h := translation_filler_error_isolation (fun _ _ => .error "api down")
    (fun s => .ok s) [] true false false false none "id" frKept "api down"
    [frFresh] [] (by decide) (Or.inr rfl) rfl
  have h2 := translation_filler_error_isolation (fun _ _ => .error "api down")
    (fun s => .ok s) [] true false false false none "id" frFresh "api down"
    [] [frKept] (by decide) (Or.inl (by decide)) rfl
  refine ⟨h.1, ?_, ?_⟩
  · have hx := h.2.1
    have hy := h2.1
    simpa [fill_rows, hx, hy] using hx
  · exact ((h.2.2.2.2) "api down" rfl).1.trans (by decide)

/-- Claim C8: in the web front end's loop, when KBBI normalization is
requested and the target language is Indonesian, a normalizer failure on a
row's gateway output never drops that row's translation — the un-normalized
gateway text is written instead (the normalizer call sits in its own
`try/except … pass`). -/
theorem normalizer_failure_fallback
    (llm_call : String → String → Except String String)
    (normalizer : String → Except String String)
    (persona : List (String × JVal)) (no_training overwrite : Bool)
    (r : FillRow) (out e : String)
    (hsrc : isBlank (r.src.getD "") = false)
    (hsel : isBlank (r.tgt.getD "") = true ∨ overwrite = true)
    (hok : llm_call fillSystem (stBuildUser (r.src.getD "")
      (if !no_training && !persona.isEmpty then persona else []) "id") = .ok out)
    (hnorm : normalizer out = .error e) :
    st_row_step llm_call normalizer persona no_training true overwrite "id" r =
      ({ r with tgt := some out }, none) := by
  rcases hsel with hsel | hsel
  · simp [st_row_step, hsrc, hsel, hok, hnorm]
  · simp [st_row_step, hsrc, hsel, hok, hnorm]

theorem normalizer_failure_fallback_witness :
    st_row_step (fun _ _ => .ok "udah pergi") (fun _ => .error "normalizer broke")
      [] false true false "id" frFresh = (⟨some "你好", some "udah pergi"⟩, none) := by
  have h := normalizer_failure_fallback (fun _ _ => .ok "udah pergi")
    (fun _ => .error "normalizer broke") [] false false frFresh "udah pergi"
    "normalizer broke" (by decide) (Or.inl (by decide)) rfl rfl
  simpa using h

end GenshinTranslator
